import Mathlib

/-
Verification of the value-coercion core of the `truffle` codec wrap layer:
the bytes case set (src/packages/codec/lib/wrap/bytes.ts) and the decimal
case set (src/unnamed/part_000), over a shallow embedding.

Raw JavaScript inputs are modelled as a closed variant type `Input`
(following the design note of the spec, section 9): each coercion case
pattern-matches on the variant instead of performing runtime type probing.
Exact big.js decimals are modelled as rationals; hex payloads as strings.
Generator-based suspension is modelled by the explicit resumable result
type `CaseResult`, whose `suspend` constructor carries the continuation.
-/

namespace Truffle

/-! ## Type descriptors -/

/-- Bytes type descriptor: `{ kind: static | dynamic, length }` (length only
when static). -/
inductive BytesType where
  | static (length : Nat)
  | dynamic
deriving DecidableEq

/-- The two decimal type classes, `fixed` (signed) and `ufixed` (unsigned). -/
inductive DecClass where
  | fixed
  | ufixed
deriving DecidableEq

/-- Decimal type descriptor: `{ typeClass, bits, places }`. -/
structure DecimalType where
  typeClass : DecClass
  bits : Nat
  places : Nat
deriving DecidableEq

/-- The type field of a previously-wrapped result.  Only the type classes the
two case sets inspect are distinguished; every other type class is collapsed
into `otherW` with its typeClass tag. -/
inductive WType where
  | bytesW (bt : BytesType)
  | fixedW (dt : DecimalType)
  | intW (signed : Bool) (bits : Nat)
  | enumW (id : String)
  | otherW (tag : String)
deriving DecidableEq

/-- The `kind` field of a wrapped result: `"value"` or `"error"`. -/
inductive RKind where
  | value
  | error
deriving DecidableEq

/-- Payload carried by a previously-wrapped result.  `hexP` is a bytes value
payload (`value.asHex`), `bigP` a decimal payload (`value.asBig`), `bnP` an
integer payload (`value.asBN`, also an enum value's `value.numericAsBN`),
`enumErrP` an enum error (`error.kind` and `error.rawAsBN`). -/
inductive WPayload where
  | hexP (asHex : String)
  | bigP (asBig : ℚ)
  | bnP (asBN : Int)
  | enumErrP (errKind : String) (rawAsBN : Int)
  | nothingP
deriving DecidableEq

/-- A previously-wrapped result, as it appears as raw input. -/
structure Wrapped where
  wtype : WType
  kind : RKind
  payload : WPayload
deriving DecidableEq

/-- A JavaScript number: either a finite value (modelled exactly) or one of
the non-finite values. -/
inductive JSVal where
  | finiteN (q : ℚ)
  | nanN
  | infN
  | negInfN
deriving DecidableEq

/-- Raw input to a coercion run, as a closed variant of the shapes the two
case sets inspect (spec section 9).  `bytesLike` models a Uint8Array-like
object: `isU8` marks an honest `Uint8Array`; an element is `none` when the
indexed property is not a number. -/
inductive Input where
  | str (s : String)
  | boxedStr (s : String)
  | num (n : JSVal)
  | boxedNum (n : JSVal)
  | bigintI (i : Int)
  | bnI (i : Int)
  | bigI (q : ℚ)
  | bytesLike (isU8 : Bool) (elems : List (Option Int))
  | encodingText (encoding : String) (text : String)
  | typeValue (tstr : String) (v : Input)
  | wrapped (w : Wrapped)
  | otherI
deriving DecidableEq

/-! ## Error model -/

/-- Modelled from the spec: the human-readable reasons produced by the
`messages` module (not under src/), one constructor per distinct message,
carrying the data interpolated into the text. -/
inductive Message where
  | notAString
  | notABoxedString
  | notAUint8ArrayLike
  | notEncodingTextShape
  | notAWrappedResult
  | notATypeValuePair
  | notABytestring
  | unsupportedEncoding (enc : String)
  | invalidText
  | wrappedTypeM (t : WType)
  | errorResultM
  | wrappedWasValue
  | specifiedTypeM (t : String)
  | overlong (expected : Nat) (got : Nat)
  | badByte (index : Nat)
  | bytesCatchAll
  | notANumber
  | notFiniteM
  | unsafeNumberM
  | nonNumeric
  | notABoxedNumber
  | notABigint
  | notABN
  | notABig
  | tooPrecise (required : Nat) (actual : Nat)
  | outOfRange
  | unrecognizedNumber (dt : DecimalType)
  | customReason (s : String)
  | noCases
deriving DecidableEq

/-- A `TypeMismatchError`: target type, offending input, argument name,
specificity (1 to 5) and reason. -/
structure Mismatch (Ty : Type) where
  dataType : Ty
  input : Input
  name : String
  specificity : Nat
  reason : Message
deriving DecidableEq

/-- Wrap options: argument name (diagnostics) and the `loose` flag. -/
structure WrapOptions where
  name : String
  loose : Bool
deriving DecidableEq

/-- A suspension request handed to the external resolver:
`{ kind: "decimal", input }`. -/
structure Request where
  kind : String
  input : Input
deriving DecidableEq

/-- A resolver response.  `value` is the exact decimal (absent = `null`),
`reason` the optional reason string, `partiallyRecognized` the recognition
flag; `kind` is checked against the request kind. -/
structure Response where
  kind : String
  value : Option ℚ
  reason : Option String
  partiallyRecognized : Bool
deriving DecidableEq

/-- The result of running one coercion case: success, a ranked mismatch, a
fatal protocol violation (`BadResponseTypeError`, carrying request and
response), or a suspension carrying the request and the continuation. -/
inductive CaseResult (Ty V : Type) where
  | ok (v : V)
  | err (e : Mismatch Ty)
  | fatal (req : Request) (resp : Response)
  | suspend (req : Request) (k : Response → CaseResult Ty V)

/-- A fully-resolved run outcome: like `CaseResult` but with every
suspension answered. -/
inductive Outcome (Ty V : Type) where
  | ok (v : V)
  | err (e : Mismatch Ty)
  | fatal (req : Request) (resp : Response)
deriving DecidableEq

/-- A coercion case: takes target type, raw input and options. -/
def Case (Ty V : Type) : Type := Ty → Input → WrapOptions → CaseResult Ty V

/-- Run a resumable result to completion, answering every suspension with
the oracle (the external resolver). -/
def resolveCase {Ty V : Type} (oracle : Request → Response) :
    CaseResult Ty V → Outcome Ty V
  | .ok v => .ok v
  | .err e => .err e
  | .fatal r p => .fatal r p
  | .suspend req k => resolveCase oracle (k (oracle req))

/-! ## Dispatch engine (dispatch.ts is not under src/) -/

/-- Run a result and, if it fails with a mismatch, continue with the
fallback; suspensions are propagated transparently, with resumption
continuing in place. -/
def withFallback {Ty V : Type} :
    CaseResult Ty V → (Mismatch Ty → CaseResult Ty V) → CaseResult Ty V
  | .ok v, _ => .ok v
  | .err e, f => f e
  | .fatal r p, _ => .fatal r p
  | .suspend req k, f => .suspend req (fun resp => withFallback (k resp) f)

/-- Modelled from the spec: the error the dispatch engine selects when every
case has failed — the recorded error of maximum specificity, the earliest in
list order winning ties (spec section 4.2). -/
def selectBest {Ty : Type} : Mismatch Ty → List (Mismatch Ty) → Mismatch Ty
  | a, [] => a
  | a, x :: xs =>
    let b := selectBest x xs
    if a.specificity < b.specificity then b else a

/-- Selection over the whole recorded list (with a default for the vacuous
empty-case-list run, which never occurs for the concrete case sets). -/
def selectRecorded {Ty : Type} (dflt : Mismatch Ty) :
    List (Mismatch Ty) → Mismatch Ty
  | [] => dflt
  | e :: rest => selectBest e rest

/-- Modelled from the spec: the loop of the dispatch engine `wrapWithCases`
(dispatch.ts, not under src/) — try each case in order, return on first
success, record mismatches, propagate suspensions, and at exhaustion raise
the best recorded error (spec section 4.2). -/
def wrapGo {Ty V : Type} (dataType : Ty) (input : Input)
    (wrapOptions : WrapOptions) :
    List (Case Ty V) → List (Mismatch Ty) → CaseResult Ty V
  | [], recorded =>
    .err (selectRecorded ⟨dataType, input, wrapOptions.name, 0, .noCases⟩
      recorded)
  | c :: rest, recorded =>
    withFallback (c dataType input wrapOptions)
      (fun e => wrapGo dataType input wrapOptions rest (recorded ++ [e]))

/-- Modelled from the spec: the dispatch engine entry point
`wrapWithCases(dataType, input, wrapOptions, cases)`. -/
def wrapWithCases {Ty V : Type} (dataType : Ty) (input : Input)
    (wrapOptions : WrapOptions) (cases : List (Case Ty V)) : CaseResult Ty V :=
  wrapGo dataType input wrapOptions cases []

/-! ## String and hex utilities (utils / conversion, not under src/) -/

/-- Modelled from the spec: a hexadecimal digit character. -/
def isHexDigit (c : Char) : Bool :=
  c.isDigit || (decide ('a' ≤ c) && decide (c ≤ 'f')) ||
    (decide ('A' ≤ c) && decide (c ≤ 'F'))

/-- Modelled from the spec: `Utils.isByteString` — a strict 0x-prefixed,
even-length hex string (spec section 4.4 case 2). -/
def isByteString (s : String) : Bool :=
  match s.data with
  | '0' :: 'x' :: rest => rest.all isHexDigit && decide (rest.length % 2 = 0)
  | _ => false

/-- ASCII lowercasing of one character (hex payloads are ASCII, so this
coincides with JavaScript `toLowerCase` on them). -/
def toLowerChar (c : Char) : Char :=
  if 'A' ≤ c ∧ c ≤ 'Z' then Char.ofNat (c.toNat + 32) else c

/-- String lowercasing, modelling `asHex.toLowerCase()`. -/
def jsToLower (s : String) : String := ⟨s.data.map toLowerChar⟩

/-- Models `asHex.padEnd(target, "00")`: since both characters of the pad
string are the zero digit, the JavaScript repeat-and-truncate padding is
exactly appending zero digits up to the target length. -/
def padEndZeros (s : String) (target : Nat) : String :=
  ⟨s.data ++ List.replicate (target - s.data.length) '0'⟩

/-- Hex digit character for a value below 16 (lowercase). -/
def hexDigit (n : Nat) : Char :=
  if n < 10 then Char.ofNat (48 + n) else Char.ofNat (87 + n)

/-- The two hex characters of one byte. -/
def byteToHexChars (n : Nat) : List Char :=
  [hexDigit (n / 16 % 16), hexDigit (n % 16)]

/-- Modelled from the spec: `Conversion.toHexString` on a byte sequence —
"0x" followed by two lowercase hex characters per byte. -/
def bytesToHex (bs : List Nat) : String :=
  ⟨'0' :: 'x' :: bs.foldr (fun b acc => byteToHexChars (b % 256) ++ acc) []⟩

/-- The `Uint8Array` element coercion applied by `new Uint8Array(input)`:
missing entries read as 0, values are reduced to a byte.  After
`validateUint8ArrayLike` every element is already an exact byte. -/
def coerceByte (e : Option Int) : Nat := (e.getD 0).toNat % 256

/-- Modelled from the spec: `Conversion.toHexString(new Uint8Array(input))`. -/
def toHexString (elems : List (Option Int)) : String :=
  bytesToHex (elems.map coerceByte)

/-- UTF-8 encoding of one character. -/
def utf8EncodeChar (c : Char) : List Nat :=
  let n := c.toNat
  if n < 128 then [n]
  else if n < 2048 then [192 + n / 64, 128 + n % 64]
  else if n < 65536 then [224 + n / 4096, 128 + n / 64 % 64, 128 + n % 64]
  else [240 + n / 262144, 128 + n / 4096 % 64, 128 + n / 64 % 64, 128 + n % 64]

/-- Modelled from the spec: `Conversion.stringToBytes` — UTF-8 bytes of the
text.  (The ill-formed-UTF-16 failure of the source cannot arise here: the
model's strings are well-formed Unicode.) -/
def stringToBytes (s : String) : List Nat :=
  s.data.foldr (fun c acc => utf8EncodeChar c ++ acc) []

/-! ## Bytes case set (src/packages/codec/lib/wrap/bytes.ts) -/

/-- A canonical bytes value: target type plus hex payload. -/
structure BytesValue where
  type : BytesType
  asHex : String
deriving DecidableEq

/-- `validateAndPad` (bytes.ts lines 336-358): lowercase the hex; if the
target is static, reject overlong payloads with a specificity-5 overlong
error and right-pad shorter payloads with zero bytes to exactly `length`
bytes. -/
def validateAndPad (dataType : BytesType) (asHex0 : String) (input : Input)
    (name : String) : Except (Mismatch BytesType) String :=
  let asHex := jsToLower asHex0
  match dataType with
  | .static length =>
    if (asHex.data.length - 2) / 2 > length then
      .error ⟨dataType, input, name, 5,
        .overlong length ((asHex.data.length - 2) / 2)⟩
    else
      .ok (padEndZeros asHex (length * 2 + 2))
  | .dynamic => .ok asHex

/-- Is an element of a Uint8Array-like bad (not a number, or not an integer
from 0 to 255)?  Non-integer numbers are subsumed by the `none` constructor
choice together with integer elements being the only exact ones. -/
def badElem (e : Option Int) : Bool :=
  match e with
  | none => true
  | some x => decide (x < 0) || decide (256 ≤ x)

/-- Index of the first bad element, mirroring the checking loop. -/
def firstBadIndex : List (Option Int) → Option Nat
  | [] => none
  | e :: rest =>
    if badElem e then some 0 else (firstBadIndex rest).map (· + 1)

/-- `validateUint8ArrayLike` (bytes.ts lines 288-334): honest `Uint8Array`s
pass; otherwise every indexed element must be an integer from 0 to 255, the
first offender being named in a specificity-5 error.  (The length checks of
the source are vacuous here: the model's length is a natural number, hence
always a non-negative safe integer.) -/
def validateUint8ArrayLike {Ty : Type} (isU8 : Bool)
    (elems : List (Option Int)) (dataType : Ty) (name : String) :
    Except (Mismatch Ty) Unit :=
  if isU8 then .ok ()
  else
    match firstBadIndex elems with
    | some i => .error ⟨dataType, .bytesLike isU8 elems, name, 5, .badByte i⟩
    | none => .ok ()

/-- `bytesFromHexString` (bytes.ts lines 35-66). -/
def bytesFromHexString : Case BytesType BytesValue :=
  fun dataType input wrapOptions =>
    match input with
    | .str s =>
      if isByteString s then
        match validateAndPad dataType s input wrapOptions.name with
        | .error e => .err e
        | .ok asHex => .ok ⟨dataType, asHex⟩
      else
        .err ⟨dataType, input, wrapOptions.name, 5, .notABytestring⟩
    | _ => .err ⟨dataType, input, wrapOptions.name, 1, .notAString⟩

/-- `bytesFromBoxedString` (bytes.ts lines 68-84): unwrap and defer to the
primitive string case. -/
def bytesFromBoxedString : Case BytesType BytesValue :=
  fun dataType input wrapOptions =>
    match input with
    | .boxedStr s => bytesFromHexString dataType (.str s) wrapOptions
    | _ => .err ⟨dataType, input, wrapOptions.name, 1, .notABoxedString⟩

/-- `bytesFromUint8ArrayLike` (bytes.ts lines 86-111). -/
def bytesFromUint8ArrayLike : Case BytesType BytesValue :=
  fun dataType input wrapOptions =>
    match input with
    | .bytesLike isU8 elems =>
      match validateUint8ArrayLike isU8 elems dataType wrapOptions.name with
      | .error e => .err e
      | .ok _ =>
        match validateAndPad dataType (toHexString elems) input
            wrapOptions.name with
        | .error e => .err e
        | .ok asHex => .ok ⟨dataType, asHex⟩
    | _ => .err ⟨dataType, input, wrapOptions.name, 1, .notAUint8ArrayLike⟩

/-- `bytesFromEncodingTextInput` (bytes.ts lines 113-156): only the `"utf8"`
encoding is supported. -/
def bytesFromEncodingTextInput : Case BytesType BytesValue :=
  fun dataType input wrapOptions =>
    match input with
    | .encodingText encoding text =>
      if encoding ≠ "utf8" then
        .err ⟨dataType, input, wrapOptions.name, 5,
          .unsupportedEncoding encoding⟩
      else
        match validateAndPad dataType (bytesToHex (stringToBytes text)) input
            wrapOptions.name with
        | .error e => .err e
        | .ok asHex => .ok ⟨dataType, asHex⟩
    | _ => .err ⟨dataType, input, wrapOptions.name, 1, .notEncodingTextShape⟩

/-- Are both bytes types dynamic? -/
def bothDynamic : BytesType → BytesType → Bool
  | .dynamic, .dynamic => true
  | _, _ => false

/-- Are both bytes types static with equal length? -/
def bothStaticSameLength : BytesType → BytesType → Bool
  | .static m, .static n => m == n
  | _, _ => false

/-- Payload extraction of the unchecked cast `<Format.Values.BytesValue>`. -/
def getHex : WPayload → String
  | .hexP h => h
  | _ => ""

/-- `bytesFromBytesValue` (bytes.ts lines 158-214): accept a
previously-wrapped bytes-class value; under strict mode the kinds (and
static lengths) must match exactly. -/
def bytesFromBytesValue : Case BytesType BytesValue :=
  fun dataType input wrapOptions =>
    match input with
    | .wrapped w =>
      match w.wtype with
      | .bytesW bt =>
        if w.kind ≠ .value then
          .err ⟨dataType, input, wrapOptions.name, 5, .errorResultM⟩
        else if wrapOptions.loose = false ∧
            bothDynamic bt dataType = false ∧
            bothStaticSameLength bt dataType = false then
          .err ⟨dataType, input, wrapOptions.name, 5, .wrappedTypeM w.wtype⟩
        else
          match validateAndPad dataType (getHex w.payload) input
              wrapOptions.name with
          | .error e => .err e
          | .ok asHex => .ok ⟨dataType, asHex⟩
      | _ => .err ⟨dataType, input, wrapOptions.name, 5, .wrappedTypeM w.wtype⟩
    | _ => .err ⟨dataType, input, wrapOptions.name, 1, .notAWrappedResult⟩

/-- `bytesFailureCase` (bytes.ts lines 274-286): the catch-all, specificity
2. -/
def bytesFailureCase : Case BytesType BytesValue :=
  fun dataType input wrapOptions =>
    .err ⟨dataType, input, wrapOptions.name, 2, .bytesCatchAll⟩

/-- Numeric value of a digit string. -/
def digitsVal (l : List Char) : Nat :=
  l.foldl (fun a c => a * 10 + (c.toNat - 48)) 0

/-- The length derivation of `bytesFromTypeValueInput` (bytes.ts lines
230-250): the pattern `byte(s\d*)?` with `byte` giving length 1, `bytes`
dynamic (`none`) and `bytesN` giving N; a non-matching string gives no
result. -/
def parseBytesTypeStr (t : String) : Option (Option Nat) :=
  match t.data with
  | 'b' :: 'y' :: 't' :: 'e' :: rest =>
    match rest with
    | [] => some (some 1)
    | 's' :: ds =>
      if ds = [] then some none
      else if ds.all Char.isDigit then some (some (digitsVal ds))
      else none
    | _ => none
  | _ => none

/-- Does the derived length match a static target of the same length? -/
def lenMatchesStatic (length : Option Nat) (dataType : BytesType) : Bool :=
  match dataType, length with
  | .static n, some m => m == n
  | _, _ => false

/-- Is the derived length dynamic (`null`) with a dynamic target? -/
def isDynAndNull (length : Option Nat) (dataType : BytesType) : Bool :=
  match dataType, length with
  | .dynamic, none => true
  | _, _ => false

/-- The basic bytes cases (bytes.ts lines 13-24), in source order. -/
def bytesCasesBasic : List (Case BytesType BytesValue) :=
  [bytesFromHexString,
   bytesFromBoxedString,
   bytesFromUint8ArrayLike,
   bytesFromBytesValue,
   bytesFromEncodingTextInput,
   bytesFailureCase]

/-- `bytesFromTypeValueInput` (bytes.ts lines 216-272): the type-annotated
pair case; on an exact length match, recurse into the basic cases with
`loose` turned on. -/
def bytesFromTypeValueInput : Case BytesType BytesValue :=
  fun dataType input wrapOptions =>
    match input with
    | .typeValue tstr v =>
      match parseBytesTypeStr tstr with
      | none =>
        .err ⟨dataType, input, wrapOptions.name, 5, .specifiedTypeM tstr⟩
      | some length =>
        if isDynAndNull length dataType = false ∧
            lenMatchesStatic length dataType = false then
          .err ⟨dataType, input, wrapOptions.name, 5, .specifiedTypeM tstr⟩
        else
          wrapWithCases dataType v ⟨wrapOptions.name, true⟩ bytesCasesBasic
    | _ => .err ⟨dataType, input, wrapOptions.name, 1, .notATypeValuePair⟩

/-- `bytesCases` (bytes.ts lines 26-33): the type/value case first, then the
basic cases. -/
def bytesCases : List (Case BytesType BytesValue) :=
  bytesFromTypeValueInput :: bytesCasesBasic

/-! ## Decimal utilities (utils / conversion, not under src/) -/

/-- Division loop for `maxPow`, with structural fuel (the fuel `n` is ample:
each step at least halves `n`). -/
def maxPowAux : Nat → Nat → Nat → Nat
  | 0, _, _ => 0
  | fuel + 1, p, n =>
    if 1 < p ∧ 0 < n ∧ n % p = 0 then maxPowAux fuel p (n / p) + 1 else 0

/-- Largest power of `p` dividing `n` (0 when `p` is trivial or `n` is 0). -/
def maxPow (p n : Nat) : Nat := maxPowAux n p n

/-- Modelled from the spec: `Conversion.countDecimalPlaces` — the number of
digits after the decimal point of an exact base-10 decimal, i.e. the least
`n` with `q * 10 ^ n` integral (big.js values always have a denominator of
the form `2 ^ a * 5 ^ b`, for which this formula is exact). -/
def countDecimalPlaces (q : ℚ) : Nat :=
  max (maxPow 2 q.den) (maxPow 5 q.den)

/-- Modelled from the spec: `Utils.maxValue` — the largest representable
value, `(2 ^ bits − 1) / 10 ^ places` for `ufixed` and
`(2 ^ (bits − 1) − 1) / 10 ^ places` for `fixed`, the inclusive form of the
half-open range bound of spec section 3 (written with `mkRat`, which is the
same exact quotient). -/
def maxValue (dataType : DecimalType) : ℚ :=
  let bits :=
    match dataType.typeClass with
    | .fixed => dataType.bits - 1
    | .ufixed => dataType.bits
  mkRat (Int.ofNat (Nat.pow 2 bits) - 1) (Nat.pow 10 dataType.places)

/-- Modelled from the spec: `Utils.minValue` — 0 for `ufixed`,
`−2 ^ (bits − 1) / 10 ^ places` for `fixed` (spec section 3). -/
def minValue (dataType : DecimalType) : ℚ :=
  match dataType.typeClass with
  | .ufixed => 0
  | .fixed =>
    mkRat (-(Int.ofNat (Nat.pow 2 (dataType.bits - 1))))
      (Nat.pow 10 dataType.places)

/-- Modelled from the spec: `Utils.isSafeNumber` — whether a native numeric
literal carries the value without possible precision loss, i.e. the value
scaled by `10 ^ places` stays within the safe-integer range (spec section
4.5); written in the cleared-denominator integer form
`|num| * 10 ^ places ≤ (2 ^ 53 − 1) * den`. -/
def isSafeNumber (dataType : DecimalType) (q : ℚ) : Bool :=
  decide (q.num.natAbs * Nat.pow 10 dataType.places ≤
    (Nat.pow 2 53 - 1) * q.den)

/-- JavaScript whitespace trimmed by `String.prototype.trim` (the ASCII
part; hex and numeric strings are ASCII). -/
def isJsWS (c : Char) : Bool :=
  c = ' ' || c = '\t' || c = '\n' || c = '\r' || c = '\x0b' || c = '\x0c'

/-- Characters of a string with leading and trailing whitespace removed. -/
def trimChars (l : List Char) : List Char :=
  ((l.dropWhile isJsWS).reverse.dropWhile isJsWS).reverse

/-- Models `input.trim()`. -/
def jsTrim (s : String) : String := ⟨trimChars s.data⟩

/-- Modelled from the spec: the numeric-string grammar of the exact-decimal
constructor `new Big(s)` — an optional minus sign, then digits with an
optional fractional part (or a fractional part alone), then an optional
decimal exponent; anything else throws, modelled as `none`. -/
def parseBigChars (l0 : List Char) : Option ℚ :=
  let p1 : Bool × List Char :=
    match l0 with
    | '-' :: rest => (true, rest)
    | _ => (false, l0)
  let neg := p1.1
  let l1 := p1.2
  let ip := l1.takeWhile Char.isDigit
  let l2 := l1.dropWhile Char.isDigit
  let p2 : List Char × List Char :=
    match l2 with
    | '.' :: rest => (rest.takeWhile Char.isDigit, rest.dropWhile Char.isDigit)
    | _ => ([], l2)
  let fp := p2.1
  let l3 := p2.2
  let eres : Option (Int × List Char) :=
    match l3 with
    | [] => some (0, [])
    | c :: rest =>
      if c = 'e' ∨ c = 'E' then
        let p3 : Int × List Char :=
          match rest with
          | '+' :: r => (1, r)
          | '-' :: r => (-1, r)
          | _ => (1, rest)
        let ed := p3.2.takeWhile Char.isDigit
        let r3 := p3.2.dropWhile Char.isDigit
        if ed = [] then none else some (p3.1 * (digitsVal ed : Int), r3)
      else some (0, l3)
  match eres with
  | none => none
  | some (ex, l4) =>
    if l4 = [] ∧ (ip ≠ [] ∨ fp ≠ []) then
      let mant : Int := Int.ofNat (digitsVal (ip ++ fp))
      let sm : Int := if neg then -mant else mant
      let e10 : Int := ex - Int.ofNat fp.length
      some (if 0 ≤ e10 then mkRat (sm * Int.ofNat (Nat.pow 10 e10.toNat)) 1
        else mkRat sm (Nat.pow 10 (-e10).toNat))
    else none

/-- Parse of a numeric string as an exact decimal. -/
def parseBig (s : String) : Option ℚ := parseBigChars s.data

/-! ## Decimal case set (src/unnamed/part_000) -/

/-- A canonical decimal value: target type plus exact decimal payload. -/
structure DecimalValue where
  type : DecimalType
  asBig : ℚ
deriving DecidableEq

/-- `validate` (part_000 lines 557-584): reject with specificity 5 when the
decimal has more places than the type allows (naming required and actual
places), or when it exceeds `maxValue` or undercuts `minValue`. -/
def validate (dataType : DecimalType) (asBig : ℚ) (input : Input)
    (name : String) : Except (Mismatch DecimalType) Unit :=
  if countDecimalPlaces asBig > dataType.places then
    .error ⟨dataType, input, name, 5,
      .tooPrecise dataType.places (countDecimalPlaces asBig)⟩
  else if asBig > maxValue dataType ∨ asBig < minValue dataType then
    .error ⟨dataType, input, name, 5, .outOfRange⟩
  else
    .ok ()

/-- The shared accepting tail of every decimal case: run the validator, then
return the canonical value at the target type. -/
def checkedDecimal (dataType : DecimalType) (asBig : ℚ) (input : Input)
    (name : String) : CaseResult DecimalType DecimalValue :=
  match validate dataType asBig input name with
  | .error e => .err e
  | .ok _ => .ok ⟨dataType, asBig⟩

/-- `decimalFromNumber` (part_000 lines 162-203). -/
def decimalFromNumber : Case DecimalType DecimalValue :=
  fun dataType input wrapOptions =>
    match input with
    | .num n =>
      match n with
      | .finiteN q =>
        if isSafeNumber dataType q = false then
          .err ⟨dataType, input, wrapOptions.name, 5, .unsafeNumberM⟩
        else
          checkedDecimal dataType q input wrapOptions.name
      | _ => .err ⟨dataType, input, wrapOptions.name, 5, .notFiniteM⟩
    | _ => .err ⟨dataType, input, wrapOptions.name, 1, .notANumber⟩

/-- `decimalFromString` (part_000 lines 125-160): trim whitespace, parse as
an exact decimal, validate. -/
def decimalFromString : Case DecimalType DecimalValue :=
  fun dataType input wrapOptions =>
    match input with
    | .str s =>
      match parseBig (jsTrim s) with
      | none => .err ⟨dataType, input, wrapOptions.name, 5, .nonNumeric⟩
      | some q => checkedDecimal dataType q input wrapOptions.name
    | _ => .err ⟨dataType, input, wrapOptions.name, 1, .notAString⟩

/-- `decimalFromBoxedNumber` (part_000 lines 223-239): unbox and defer. -/
def decimalFromBoxedNumber : Case DecimalType DecimalValue :=
  fun dataType input wrapOptions =>
    match input with
    | .boxedNum n => decimalFromNumber dataType (.num n) wrapOptions
    | _ => .err ⟨dataType, input, wrapOptions.name, 1, .notABoxedNumber⟩

/-- `decimalFromBoxedString` (part_000 lines 205-221): unbox and defer. -/
def decimalFromBoxedString : Case DecimalType DecimalValue :=
  fun dataType input wrapOptions =>
    match input with
    | .boxedStr s => decimalFromString dataType (.str s) wrapOptions
    | _ => .err ⟨dataType, input, wrapOptions.name, 1, .notABoxedString⟩

/-- `decimalFromBigint` (part_000 lines 100-123). -/
def decimalFromBigint : Case DecimalType DecimalValue :=
  fun dataType input wrapOptions =>
    match input with
    | .bigintI i => checkedDecimal dataType (mkRat i 1) input wrapOptions.name
    | _ => .err ⟨dataType, input, wrapOptions.name, 1, .notABigint⟩

/-- `decimalFromBN` (part_000 lines 75-98). -/
def decimalFromBN : Case DecimalType DecimalValue :=
  fun dataType input wrapOptions =>
    match input with
    | .bnI i => checkedDecimal dataType (mkRat i 1) input wrapOptions.name
    | _ => .err ⟨dataType, input, wrapOptions.name, 1, .notABN⟩

/-- `decimalFromBig` (part_000 lines 50-73): clone (`plus(0)`, the identity
on the exact value) and validate. -/
def decimalFromBig : Case DecimalType DecimalValue :=
  fun dataType input wrapOptions =>
    match input with
    | .bigI q => checkedDecimal dataType q input wrapOptions.name
    | _ => .err ⟨dataType, input, wrapOptions.name, 1, .notABig⟩

/-- Payload extraction of the unchecked cast `<DecimalValue>input`. -/
def getBig : WPayload → ℚ
  | .bigP q => q
  | _ => 0

/-- Payload extraction of the unchecked integer casts. -/
def getBN : WPayload → Int
  | .bnP n => n
  | _ => 0

/-- Error-kind extraction of the cast `<Format.Errors.EnumErrorResult>`. -/
def getEnumErrKind : WPayload → String
  | .enumErrP k _ => k
  | _ => ""

/-- Raw numeric payload of an enum out-of-range error. -/
def getEnumErrRaw : WPayload → Int
  | .enumErrP _ raw => raw
  | _ => 0

/-- `decimalFromDecimalValue` (part_000 lines 241-299): accept a wrapped
fixed/ufixed value; unless `loose`, typeClass, bits and places must all
match; clone the payload and re-validate. -/
def decimalFromDecimalValue : Case DecimalType DecimalValue :=
  fun dataType input wrapOptions =>
    match input with
    | .wrapped w =>
      match w.wtype with
      | .fixedW dt2 =>
        if w.kind ≠ .value then
          .err ⟨dataType, input, wrapOptions.name, 5, .errorResultM⟩
        else if wrapOptions.loose = false ∧
            (dt2.typeClass ≠ dataType.typeClass ∨ dt2.bits ≠ dataType.bits ∨
              dt2.places ≠ dataType.places) then
          .err ⟨dataType, input, wrapOptions.name, 5, .wrappedTypeM w.wtype⟩
        else
          checkedDecimal dataType (getBig w.payload) input wrapOptions.name
      | _ => .err ⟨dataType, input, wrapOptions.name, 5, .wrappedTypeM w.wtype⟩
    | _ => .err ⟨dataType, input, wrapOptions.name, 1, .notAWrappedResult⟩

/-- `decimalFromIntegerValue` (part_000 lines 301-354): a wrapped int/uint
value, only accepted when `loose`. -/
def decimalFromIntegerValue : Case DecimalType DecimalValue :=
  fun dataType input wrapOptions =>
    match input with
    | .wrapped w =>
      match w.wtype with
      | .intW _ _ =>
        if w.kind ≠ .value then
          .err ⟨dataType, input, wrapOptions.name, 5, .errorResultM⟩
        else if wrapOptions.loose = false then
          .err ⟨dataType, input, wrapOptions.name, 5, .wrappedTypeM w.wtype⟩
        else
          checkedDecimal dataType (mkRat (getBN w.payload) 1) input
            wrapOptions.name
      | _ => .err ⟨dataType, input, wrapOptions.name, 5, .wrappedTypeM w.wtype⟩
    | _ => .err ⟨dataType, input, wrapOptions.name, 1, .notAWrappedResult⟩

/-- `decimalFromEnumValue` (part_000 lines 356-406): a wrapped enum value,
only accepted when `loose`; an enum *error* result is rejected at
specificity 1 only, because the enum-error case owns that shape. -/
def decimalFromEnumValue : Case DecimalType DecimalValue :=
  fun dataType input wrapOptions =>
    match input with
    | .wrapped w =>
      match w.wtype with
      | .enumW _ =>
        if w.kind ≠ .value then
          .err ⟨dataType, input, wrapOptions.name, 1, .errorResultM⟩
        else if wrapOptions.loose = false then
          .err ⟨dataType, input, wrapOptions.name, 5, .wrappedTypeM w.wtype⟩
        else
          checkedDecimal dataType (mkRat (getBN w.payload) 1) input
            wrapOptions.name
      | _ => .err ⟨dataType, input, wrapOptions.name, 5, .wrappedTypeM w.wtype⟩
    | _ => .err ⟨dataType, input, wrapOptions.name, 1, .notAWrappedResult⟩

/-- `decimalFromEnumError` (part_000 lines 408-469): a wrapped enum error of
the specific out-of-range kind, only accepted when `loose`; an enum *value*
result is rejected at specificity 1 only. -/
def decimalFromEnumError : Case DecimalType DecimalValue :=
  fun dataType input wrapOptions =>
    match input with
    | .wrapped w =>
      match w.wtype with
      | .enumW _ =>
        if w.kind ≠ .error then
          .err ⟨dataType, input, wrapOptions.name, 1, .wrappedWasValue⟩
        else if wrapOptions.loose = false then
          .err ⟨dataType, input, wrapOptions.name, 5, .wrappedTypeM w.wtype⟩
        else if getEnumErrKind w.payload ≠ "EnumOutOfRangeError" then
          .err ⟨dataType, input, wrapOptions.name, 5, .errorResultM⟩
        else
          checkedDecimal dataType (mkRat (getEnumErrRaw w.payload) 1) input
            wrapOptions.name
      | _ => .err ⟨dataType, input, wrapOptions.name, 5, .wrappedTypeM w.wtype⟩
    | _ => .err ⟨dataType, input, wrapOptions.name, 1, .notAWrappedResult⟩

/-- The reason of the resolver-fallback mismatch:
`response.reason || unrecognizedNumberMessage(dataType)` — the empty string
is falsy, so it also falls back to the default. -/
def reasonOrDefault (r : Option String) (dataType : DecimalType) : Message :=
  match r with
  | some s => if s = "" then .unrecognizedNumber dataType else .customReason s
  | none => .unrecognizedNumber dataType

/-- `decimalFromOther` (part_000 lines 527-555): suspend with a
`{kind:"decimal", input}` request; a non-decimal response kind is a protocol
violation; an absent value is a mismatch at specificity 5 when partially
recognized, 3 otherwise; a present value is cloned and validated. -/
def decimalFromOther : Case DecimalType DecimalValue :=
  fun dataType input wrapOptions =>
    .suspend ⟨"decimal", input⟩ (fun response =>
      if response.kind ≠ "decimal" then
        .fatal ⟨"decimal", input⟩ response
      else
        match response.value with
        | none =>
          .err ⟨dataType, input, wrapOptions.name,
            if response.partiallyRecognized then 5 else 3,
            reasonOrDefault response.reason dataType⟩
        | some q => checkedDecimal dataType q input wrapOptions.name)

/-- The basic decimal cases (part_000 lines 22-39), in source order;
`decimalFromOther` must go last. -/
def decimalCasesBasic : List (Case DecimalType DecimalValue) :=
  [decimalFromNumber,
   decimalFromString,
   decimalFromBoxedNumber,
   decimalFromBoxedString,
   decimalFromBigint,
   decimalFromBN,
   decimalFromBig,
   decimalFromDecimalValue,
   decimalFromIntegerValue,
   decimalFromEnumValue,
   decimalFromEnumError,
   decimalFromOther]

/-- The type parse of `decimalFromTypeValueInput` (part_000 lines 485-504):
the pattern `(u?fixed)((\d+)(x(\d+))?)?`, bits defaulting to 128 and places
to 18 when absent; a non-matching string gives no result. -/
def parseFixedTypeStr (t : String) : Option (DecClass × Nat × Nat) :=
  let core : Option (DecClass × List Char) :=
    match t.data with
    | 'u' :: 'f' :: 'i' :: 'x' :: 'e' :: 'd' :: rest => some (.ufixed, rest)
    | 'f' :: 'i' :: 'x' :: 'e' :: 'd' :: rest => some (.fixed, rest)
    | _ => none
  match core with
  | none => none
  | some (tc, rest) =>
    if rest = [] then some (tc, 128, 18)
    else
      let bs := rest.takeWhile Char.isDigit
      let r2 := rest.dropWhile Char.isDigit
      if bs = [] then none
      else
        match r2 with
        | [] => some (tc, digitsVal bs, 18)
        | 'x' :: ps =>
          if ps ≠ [] ∧ ps.all Char.isDigit then
            some (tc, digitsVal bs, digitsVal ps)
          else none
        | _ => none

/-- `decimalFromTypeValueInput` (part_000 lines 471-525): the type-annotated
pair case; the parsed class, bits and places must match the target exactly,
then recurse into the basic cases with `loose` turned on. -/
def decimalFromTypeValueInput : Case DecimalType DecimalValue :=
  fun dataType input wrapOptions =>
    match input with
    | .typeValue tstr v =>
      match parseFixedTypeStr tstr with
      | none =>
        .err ⟨dataType, input, wrapOptions.name, 5, .specifiedTypeM tstr⟩
      | some (tc, bits, places) =>
        if dataType.typeClass ≠ tc ∨ dataType.bits ≠ bits ∨
            dataType.places ≠ places then
          .err ⟨dataType, input, wrapOptions.name, 5, .specifiedTypeM tstr⟩
        else
          wrapWithCases dataType v ⟨wrapOptions.name, true⟩ decimalCasesBasic
    | _ => .err ⟨dataType, input, wrapOptions.name, 1, .notATypeValuePair⟩

/-- `decimalCases` (part_000 lines 41-48): the type/value case first, then
the basic cases. -/
def decimalCases : List (Case DecimalType DecimalValue) :=
  decimalFromTypeValueInput :: decimalCasesBasic

/-! ## Engine lemmas -/

/-- Resolving a result-with-fallback: successes and protocol violations pass
through, a mismatch continues into the fallback — also across any chain of
suspensions. -/
theorem resolveCase_withFallback {Ty V : Type} (oracle : Request → Response)
    (r : CaseResult Ty V) (f : Mismatch Ty → CaseResult Ty V) :
    resolveCase oracle (withFallback r f) =
      match resolveCase oracle r with
      | .ok v => Outcome.ok v
      | .err e => resolveCase oracle (f e)
      | .fatal a b => Outcome.fatal a b := by
  induction r with
  | ok v => rfl
  | err e => rfl
  | fatal a b => rfl
  | suspend req k ih =>
    simp only [withFallback, resolveCase]
    exact ih (oracle req)

/-- The maximum specificity over a list of mismatches. -/
def maxSpec {Ty : Type} (es : List (Mismatch Ty)) : Nat :=
  es.foldr (fun x m => max x.specificity m) 0

theorem maxSpec_cons {Ty : Type} (a : Mismatch Ty) (l : List (Mismatch Ty)) :
    maxSpec (a :: l) = max a.specificity (maxSpec l) := rfl

/-- The selected error attains the maximum specificity. -/
theorem selectBest_spec {Ty : Type} :
    ∀ (l : List (Mismatch Ty)) (a : Mismatch Ty),
    (selectBest a l).specificity = max a.specificity (maxSpec l)
  | [], a => by simp [selectBest, maxSpec]
  | x :: xs, a => by
    have ih := selectBest_spec xs x
    simp only [selectBest]
    by_cases h : a.specificity < (selectBest x xs).specificity
    · rw [if_pos h, maxSpec_cons, ← ih]
      exact (Nat.max_eq_right (Nat.le_of_lt h)).symm
    · rw [if_neg h, maxSpec_cons, ← ih]
      exact (Nat.max_eq_left (Nat.not_lt.mp h)).symm

/-- The selected error is the earliest one of maximum specificity: it is
what `find?` at the maximum specificity returns. -/
theorem selectBest_find {Ty : Type} :
    ∀ (l : List (Mismatch Ty)) (a : Mismatch Ty),
    (a :: l).find? (fun x => x.specificity == maxSpec (a :: l)) =
      some (selectBest a l)
  | [], a => by
    simp [selectBest, maxSpec, List.find?]
  | x :: xs, a => by
    have ih := selectBest_find xs x
    have hspec : (selectBest x xs).specificity = maxSpec (x :: xs) := by
      rw [selectBest_spec xs x, maxSpec_cons]
    by_cases h : a.specificity < (selectBest x xs).specificity
    · have hm : maxSpec (a :: x :: xs) = maxSpec (x :: xs) := by
        rw [maxSpec_cons, ← hspec]
        exact Nat.max_eq_right (Nat.le_of_lt h)
      rw [hm]
      have hne : (a.specificity == maxSpec (x :: xs)) = false := by
        rw [← hspec]
        exact beq_eq_false_iff_ne.mpr (Nat.ne_of_lt h)
      rw [List.find?_cons_of_neg _ (by rw [hne]; exact Bool.false_ne_true), ih]
      simp only [selectBest, if_pos h]
    · have hm : maxSpec (a :: x :: xs) = a.specificity := by
        rw [maxSpec_cons, ← hspec]
        exact Nat.max_eq_left (Nat.not_lt.mp h)
      rw [hm]
      rw [List.find?_cons_of_pos _ (by simp)]
      simp only [selectBest, if_neg h]

/-- When every case of a run resolves to a mismatch, the engine resolves to
the selection over the recorded errors. -/
theorem wrapGo_allFail {Ty V : Type} (oracle : Request → Response) (ty : Ty)
    (inp : Input) (opts : WrapOptions) :
    ∀ (cases : List (Case Ty V)) (es recorded : List (Mismatch Ty)),
    cases.map (fun c => resolveCase oracle (c ty inp opts)) =
      es.map Outcome.err →
    resolveCase oracle (wrapGo ty inp opts cases recorded) =
      .err (selectRecorded ⟨ty, inp, opts.name, 0, .noCases⟩ (recorded ++ es))
  | [], es, recorded, h => by
    have hes : es = [] := by cases es <;> simp_all
    subst hes
    simp [wrapGo, resolveCase]
  | c :: rest, es, recorded, h => by
    cases es with
    | nil => simp at h
    | cons e es' =>
      simp only [List.map, List.cons.injEq] at h
      obtain ⟨h1, h2⟩ := h
      have ih := wrapGo_allFail oracle ty inp opts rest es' (recorded ++ [e]) h2
      show resolveCase oracle
        (withFallback (c ty inp opts)
          (fun e => wrapGo ty inp opts rest (recorded ++ [e]))) = _
      rw [resolveCase_withFallback, h1]
      show resolveCase oracle (wrapGo ty inp opts rest (recorded ++ [e])) = _
      rw [ih, List.append_assoc]
      rfl

/-- When the engine resolves to a success, some case in the list resolves to
that success (first-match-wins implies a contributing case exists). -/
theorem wrapGo_ok {Ty V : Type} (oracle : Request → Response) (ty : Ty)
    (inp : Input) (opts : WrapOptions) :
    ∀ (cases : List (Case Ty V)) (recorded : List (Mismatch Ty)) (v : V),
    resolveCase oracle (wrapGo ty inp opts cases recorded) = .ok v →
    ∃ c ∈ cases, resolveCase oracle (c ty inp opts) = .ok v
  | [], recorded, v, h => by simp [wrapGo, resolveCase] at h
  | c :: rest, recorded, v, h => by
    rw [show wrapGo ty inp opts (c :: rest) recorded =
        withFallback (c ty inp opts)
          (fun e => wrapGo ty inp opts rest (recorded ++ [e])) from rfl,
      resolveCase_withFallback] at h
    cases hr : resolveCase oracle (c ty inp opts) with
    | ok w =>
      rw [hr] at h
      have h' : (Outcome.ok w : Outcome Ty V) = Outcome.ok v := h
      injection h' with hw
      subst hw
      exact ⟨c, List.mem_cons_self c rest, hr⟩
    | err e =>
      rw [hr] at h
      have h' : resolveCase oracle (wrapGo ty inp opts rest (recorded ++ [e])) =
          Outcome.ok v := h
      obtain ⟨c2, hm, hc⟩ :=
        wrapGo_ok oracle ty inp opts rest (recorded ++ [e]) v h'
      exact ⟨c2, List.mem_cons_of_mem _ hm, hc⟩
    | fatal a b =>
      rw [hr] at h
      exact Outcome.noConfusion (h : Outcome.fatal a b = Outcome.ok v)

/-! ## Per-case success inversion, bytes -/

/-- What holds of every successful bytes case: the value is tagged with the
engine-supplied target type, and its payload came out of `validateAndPad`. -/
def BytesCaseOk (ty : BytesType) (v : BytesValue) : Prop :=
  v.type = ty ∧ ∃ s i n, validateAndPad ty s i n = Except.ok v.asHex

theorem bytesFromHexString_ok (oracle : Request → Response) (ty : BytesType)
    (inp : Input) (opts : WrapOptions) (v : BytesValue)
    (h : resolveCase oracle (bytesFromHexString ty inp opts) = .ok v) :
    BytesCaseOk ty v := by
  cases inp <;> try exact Outcome.noConfusion h
  case str s =>
    simp only [bytesFromHexString] at h
    split_ifs at h
    · cases hvp : validateAndPad ty s (.str s) opts.name with
      | error e => rw [hvp] at h; exact Outcome.noConfusion h
      | ok out =>
        rw [hvp] at h
        have h' : Outcome.ok (BytesValue.mk ty out) = Outcome.ok v := h
        injection h' with hv
        subst hv
        exact ⟨rfl, s, .str s, opts.name, hvp⟩
    · exact Outcome.noConfusion h

theorem bytesFromBoxedString_ok (oracle : Request → Response)
    (ty : BytesType) (inp : Input) (opts : WrapOptions) (v : BytesValue)
    (h : resolveCase oracle (bytesFromBoxedString ty inp opts) = .ok v) :
    BytesCaseOk ty v := by
  cases inp <;> try exact Outcome.noConfusion h
  case boxedStr s =>
    exact bytesFromHexString_ok oracle ty (.str s) opts v h

theorem bytesFromUint8ArrayLike_ok (oracle : Request → Response)
    (ty : BytesType) (inp : Input) (opts : WrapOptions) (v : BytesValue)
    (h : resolveCase oracle (bytesFromUint8ArrayLike ty inp opts) = .ok v) :
    BytesCaseOk ty v := by
  cases inp <;> try exact Outcome.noConfusion h
  case bytesLike isU8 elems =>
    simp only [bytesFromUint8ArrayLike] at h
    cases hval : @validateUint8ArrayLike BytesType isU8 elems ty
        opts.name with
    | error e => rw [hval] at h; exact Outcome.noConfusion h
    | ok u =>
      rw [hval] at h
      cases hvp : validateAndPad ty (toHexString elems) (.bytesLike isU8 elems)
          opts.name with
      | error e => rw [hvp] at h; exact Outcome.noConfusion h
      | ok out =>
        rw [hvp] at h
        have h' : Outcome.ok (BytesValue.mk ty out) = Outcome.ok v := h
        injection h' with hv
        subst hv
        exact ⟨rfl, toHexString elems, .bytesLike isU8 elems, opts.name, hvp⟩

theorem bytesFromEncodingTextInput_ok (oracle : Request → Response)
    (ty : BytesType) (inp : Input) (opts : WrapOptions) (v : BytesValue)
    (h : resolveCase oracle (bytesFromEncodingTextInput ty inp opts) = .ok v) :
    BytesCaseOk ty v := by
  cases inp <;> try exact Outcome.noConfusion h
  case encodingText enc text =>
    simp only [bytesFromEncodingTextInput] at h
    split_ifs at h
    · exact Outcome.noConfusion h
    · cases hvp : validateAndPad ty (bytesToHex (stringToBytes text))
          (.encodingText enc text) opts.name with
      | error e => rw [hvp] at h; exact Outcome.noConfusion h
      | ok out =>
        rw [hvp] at h
        have h' : Outcome.ok (BytesValue.mk ty out) = Outcome.ok v := h
        injection h' with hv
        subst hv
        exact ⟨rfl, bytesToHex (stringToBytes text), .encodingText enc text,
          opts.name, hvp⟩

theorem bytesFromBytesValue_ok (oracle : Request → Response)
    (ty : BytesType) (inp : Input) (opts : WrapOptions) (v : BytesValue)
    (h : resolveCase oracle (bytesFromBytesValue ty inp opts) = .ok v) :
    BytesCaseOk ty v := by
  cases inp <;> try exact Outcome.noConfusion h
  case wrapped w =>
    obtain ⟨wt, wk, wp⟩ := w
    cases wt <;> simp only [bytesFromBytesValue] at h <;>
      try exact Outcome.noConfusion h
    case bytesW bt =>
      split_ifs at h
      · exact Outcome.noConfusion h
      · exact Outcome.noConfusion h
      · cases hvp : validateAndPad ty (getHex wp)
            (.wrapped ⟨.bytesW bt, wk, wp⟩) opts.name with
        | error e => rw [hvp] at h; exact Outcome.noConfusion h
        | ok out =>
          rw [hvp] at h
          have h' : Outcome.ok (BytesValue.mk ty out) = Outcome.ok v := h
          injection h' with hv
          subst hv
          exact ⟨rfl, getHex wp, .wrapped ⟨.bytesW bt, wk, wp⟩, opts.name, hvp⟩

theorem bytesFailureCase_ok (oracle : Request → Response) (ty : BytesType)
    (inp : Input) (opts : WrapOptions) (v : BytesValue)
    (h : resolveCase oracle (bytesFailureCase ty inp opts) = .ok v) :
    BytesCaseOk ty v := Outcome.noConfusion h

theorem bytesBasic_ok (c : Case BytesType BytesValue)
    (hc : c ∈ bytesCasesBasic) (oracle : Request → Response) (ty : BytesType)
    (inp : Input) (opts : WrapOptions) (v : BytesValue)
    (h : resolveCase oracle (c ty inp opts) = .ok v) : BytesCaseOk ty v := by
  simp only [bytesCasesBasic, List.mem_cons, List.not_mem_nil, or_false] at hc
  rcases hc with rfl | rfl | rfl | rfl | rfl | rfl
  · exact bytesFromHexString_ok oracle ty inp opts v h
  · exact bytesFromBoxedString_ok oracle ty inp opts v h
  · exact bytesFromUint8ArrayLike_ok oracle ty inp opts v h
  · exact bytesFromBytesValue_ok oracle ty inp opts v h
  · exact bytesFromEncodingTextInput_ok oracle ty inp opts v h
  · exact bytesFailureCase_ok oracle ty inp opts v h

theorem bytesFromTypeValueInput_ok (oracle : Request → Response)
    (ty : BytesType) (inp : Input) (opts : WrapOptions) (v : BytesValue)
    (h : resolveCase oracle (bytesFromTypeValueInput ty inp opts) = .ok v) :
    BytesCaseOk ty v := by
  cases inp <;> try exact Outcome.noConfusion h
  case typeValue tstr v0 =>
    cases hp : parseBytesTypeStr tstr with
    | none =>
      simp only [bytesFromTypeValueInput, hp] at h
      exact Outcome.noConfusion h
    | some length =>
      simp only [bytesFromTypeValueInput, hp] at h
      split_ifs at h
      · exact Outcome.noConfusion h
      · obtain ⟨c2, hm, hc⟩ := wrapGo_ok oracle ty v0 ⟨opts.name, true⟩
          bytesCasesBasic [] v h
        exact bytesBasic_ok c2 hm oracle ty v0 ⟨opts.name, true⟩ v hc

theorem bytesAll_ok (c : Case BytesType BytesValue) (hc : c ∈ bytesCases)
    (oracle : Request → Response) (ty : BytesType) (inp : Input)
    (opts : WrapOptions) (v : BytesValue)
    (h : resolveCase oracle (c ty inp opts) = .ok v) : BytesCaseOk ty v := by
  rcases List.mem_cons.mp hc with rfl | hc2
  · exact bytesFromTypeValueInput_ok oracle ty inp opts v h
  · exact bytesBasic_ok c hc2 oracle ty inp opts v h

/-! ## Per-case success inversion, decimal -/

/-- A successful `checkedDecimal` returns exactly the validated value tagged
with the target type. -/
theorem checkedDecimal_ok (oracle : Request → Response) (dt : DecimalType)
    (q : ℚ) (i : Input) (n : String) (v : DecimalValue)
    (h : resolveCase oracle (checkedDecimal dt q i n) = .ok v) :
    v = ⟨dt, q⟩ := by
  cases hv : validate dt q i n with
  | error e =>
    simp only [checkedDecimal, hv] at h
    exact Outcome.noConfusion h
  | ok u =>
    simp only [checkedDecimal, hv] at h
    have h' : Outcome.ok (DecimalValue.mk dt q) = Outcome.ok v := h
    injection h' with hv2
    exact hv2.symm

theorem decimalFromNumber_ok (oracle : Request → Response)
    (ty : DecimalType) (inp : Input) (opts : WrapOptions) (v : DecimalValue)
    (h : resolveCase oracle (decimalFromNumber ty inp opts) = .ok v) :
    v.type = ty := by
  cases inp <;> try exact Outcome.noConfusion h
  case num n =>
    cases n <;> simp only [decimalFromNumber] at h <;>
      try exact Outcome.noConfusion h
    case finiteN q =>
      split_ifs at h
      · exact Outcome.noConfusion h
      · rw [checkedDecimal_ok oracle ty q (.num (.finiteN q)) opts.name v h]

theorem decimalFromString_ok (oracle : Request → Response)
    (ty : DecimalType) (inp : Input) (opts : WrapOptions) (v : DecimalValue)
    (h : resolveCase oracle (decimalFromString ty inp opts) = .ok v) :
    v.type = ty := by
  cases inp <;> try exact Outcome.noConfusion h
  case str s =>
    cases hp : parseBig (jsTrim s) with
    | none =>
      simp only [decimalFromString, hp] at h
      exact Outcome.noConfusion h
    | some q =>
      simp only [decimalFromString, hp] at h
      rw [checkedDecimal_ok oracle ty q (.str s) opts.name v h]

theorem decimalFromBoxedNumber_ok (oracle : Request → Response)
    (ty : DecimalType) (inp : Input) (opts : WrapOptions) (v : DecimalValue)
    (h : resolveCase oracle (decimalFromBoxedNumber ty inp opts) = .ok v) :
    v.type = ty := by
  cases inp <;> try exact Outcome.noConfusion h
  case boxedNum n => exact decimalFromNumber_ok oracle ty (.num n) opts v h

theorem decimalFromBoxedString_ok (oracle : Request → Response)
    (ty : DecimalType) (inp : Input) (opts : WrapOptions) (v : DecimalValue)
    (h : resolveCase oracle (decimalFromBoxedString ty inp opts) = .ok v) :
    v.type = ty := by
  cases inp <;> try exact Outcome.noConfusion h
  case boxedStr s => exact decimalFromString_ok oracle ty (.str s) opts v h

theorem decimalFromBigint_ok (oracle : Request → Response)
    (ty : DecimalType) (inp : Input) (opts : WrapOptions) (v : DecimalValue)
    (h : resolveCase oracle (decimalFromBigint ty inp opts) = .ok v) :
    v.type = ty := by
  cases inp <;> try exact Outcome.noConfusion h
  case bigintI i =>
    rw [checkedDecimal_ok oracle ty (mkRat i 1) (.bigintI i) opts.name v h]

theorem decimalFromBN_ok (oracle : Request → Response)
    (ty : DecimalType) (inp : Input) (opts : WrapOptions) (v : DecimalValue)
    (h : resolveCase oracle (decimalFromBN ty inp opts) = .ok v) :
    v.type = ty := by
  cases inp <;> try exact Outcome.noConfusion h
  case bnI i =>
    rw [checkedDecimal_ok oracle ty (mkRat i 1) (.bnI i) opts.name v h]

theorem decimalFromBig_ok (oracle : Request → Response)
    (ty : DecimalType) (inp : Input) (opts : WrapOptions) (v : DecimalValue)
    (h : resolveCase oracle (decimalFromBig ty inp opts) = .ok v) :
    v.type = ty := by
  cases inp <;> try exact Outcome.noConfusion h
  case bigI q =>
    rw [checkedDecimal_ok oracle ty q (.bigI q) opts.name v h]

theorem decimalFromDecimalValue_ok (oracle : Request → Response)
    (ty : DecimalType) (inp : Input) (opts : WrapOptions) (v : DecimalValue)
    (h : resolveCase oracle (decimalFromDecimalValue ty inp opts) = .ok v) :
    v.type = ty := by
  cases inp <;> try exact Outcome.noConfusion h
  case wrapped w =>
    obtain ⟨wt, wk, wp⟩ := w
    cases wt <;> simp only [decimalFromDecimalValue] at h <;>
      try exact Outcome.noConfusion h
    case fixedW dt2 =>
      split_ifs at h
      · exact Outcome.noConfusion h
      · exact Outcome.noConfusion h
      · rw [checkedDecimal_ok oracle ty (getBig wp)
          (.wrapped ⟨.fixedW dt2, wk, wp⟩) opts.name v h]

theorem decimalFromIntegerValue_ok (oracle : Request → Response)
    (ty : DecimalType) (inp : Input) (opts : WrapOptions) (v : DecimalValue)
    (h : resolveCase oracle (decimalFromIntegerValue ty inp opts) = .ok v) :
    v.type = ty := by
  cases inp <;> try exact Outcome.noConfusion h
  case wrapped w =>
    obtain ⟨wt, wk, wp⟩ := w
    cases wt <;> simp only [decimalFromIntegerValue] at h <;>
      try exact Outcome.noConfusion h
    case intW sg bits =>
      split_ifs at h
      · exact Outcome.noConfusion h
      · exact Outcome.noConfusion h
      · rw [checkedDecimal_ok oracle ty (mkRat (getBN wp) 1)
          (.wrapped ⟨.intW sg bits, wk, wp⟩) opts.name v h]

theorem decimalFromEnumValue_ok (oracle : Request → Response)
    (ty : DecimalType) (inp : Input) (opts : WrapOptions) (v : DecimalValue)
    (h : resolveCase oracle (decimalFromEnumValue ty inp opts) = .ok v) :
    v.type = ty := by
  cases inp <;> try exact Outcome.noConfusion h
  case wrapped w =>
    obtain ⟨wt, wk, wp⟩ := w
    cases wt <;> simp only [decimalFromEnumValue] at h <;>
      try exact Outcome.noConfusion h
    case enumW en =>
      split_ifs at h
      · exact Outcome.noConfusion h
      · exact Outcome.noConfusion h
      · rw [checkedDecimal_ok oracle ty (mkRat (getBN wp) 1)
          (.wrapped ⟨.enumW en, wk, wp⟩) opts.name v h]

theorem decimalFromEnumError_ok (oracle : Request → Response)
    (ty : DecimalType) (inp : Input) (opts : WrapOptions) (v : DecimalValue)
    (h : resolveCase oracle (decimalFromEnumError ty inp opts) = .ok v) :
    v.type = ty := by
  cases inp <;> try exact Outcome.noConfusion h
  case wrapped w =>
    obtain ⟨wt, wk, wp⟩ := w
    cases wt <;> simp only [decimalFromEnumError] at h <;>
      try exact Outcome.noConfusion h
    case enumW en =>
      split_ifs at h
      · exact Outcome.noConfusion h
      · exact Outcome.noConfusion h
      · exact Outcome.noConfusion h
      · rw [checkedDecimal_ok oracle ty (mkRat (getEnumErrRaw wp) 1)
          (.wrapped ⟨.enumW en, wk, wp⟩) opts.name v h]

theorem decimalFromOther_ok (oracle : Request → Response)
    (ty : DecimalType) (inp : Input) (opts : WrapOptions) (v : DecimalValue)
    (h : resolveCase oracle (decimalFromOther ty inp opts) = .ok v) :
    v.type = ty := by
  simp only [decimalFromOther, resolveCase] at h
  by_cases hk : (oracle ⟨"decimal", inp⟩).kind ≠ "decimal"
  · rw [if_pos hk] at h
    exact Outcome.noConfusion h
  · rw [if_neg hk] at h
    cases hrv : (oracle ⟨"decimal", inp⟩).value with
    | none =>
      rw [hrv] at h
      exact Outcome.noConfusion h
    | some q =>
      rw [hrv] at h
      rw [checkedDecimal_ok oracle ty q inp opts.name v h]

theorem decimalBasic_ok (c : Case DecimalType DecimalValue)
    (hc : c ∈ decimalCasesBasic) (oracle : Request → Response)
    (ty : DecimalType) (inp : Input) (opts : WrapOptions) (v : DecimalValue)
    (h : resolveCase oracle (c ty inp opts) = .ok v) : v.type = ty := by
  simp only [decimalCasesBasic, List.mem_cons, List.not_mem_nil, or_false]
    at hc
  rcases hc with rfl | rfl | rfl | rfl | rfl | rfl | rfl | rfl | rfl | rfl |
    rfl | rfl
  · exact decimalFromNumber_ok oracle ty inp opts v h
  · exact decimalFromString_ok oracle ty inp opts v h
  · exact decimalFromBoxedNumber_ok oracle ty inp opts v h
  · exact decimalFromBoxedString_ok oracle ty inp opts v h
  · exact decimalFromBigint_ok oracle ty inp opts v h
  · exact decimalFromBN_ok oracle ty inp opts v h
  · exact decimalFromBig_ok oracle ty inp opts v h
  · exact decimalFromDecimalValue_ok oracle ty inp opts v h
  · exact decimalFromIntegerValue_ok oracle ty inp opts v h
  · exact decimalFromEnumValue_ok oracle ty inp opts v h
  · exact decimalFromEnumError_ok oracle ty inp opts v h
  · exact decimalFromOther_ok oracle ty inp opts v h

theorem decimalFromTypeValueInput_ok (oracle : Request → Response)
    (ty : DecimalType) (inp : Input) (opts : WrapOptions) (v : DecimalValue)
    (h : resolveCase oracle (decimalFromTypeValueInput ty inp opts) = .ok v) :
    v.type = ty := by
  cases inp <;> try exact Outcome.noConfusion h
  case typeValue tstr v0 =>
    cases hp : parseFixedTypeStr tstr with
    | none =>
      simp only [decimalFromTypeValueInput, hp] at h
      exact Outcome.noConfusion h
    | some tcbp =>
      obtain ⟨tc, bits, places⟩ := tcbp
      simp only [decimalFromTypeValueInput, hp] at h
      split_ifs at h
      · exact Outcome.noConfusion h
      · obtain ⟨c2, hm, hc⟩ := wrapGo_ok oracle ty v0 ⟨opts.name, true⟩
          decimalCasesBasic [] v h
        exact decimalBasic_ok c2 hm oracle ty v0 ⟨opts.name, true⟩ v hc

theorem decimalAll_ok (c : Case DecimalType DecimalValue)
    (hc : c ∈ decimalCases) (oracle : Request → Response) (ty : DecimalType)
    (inp : Input) (opts : WrapOptions) (v : DecimalValue)
    (h : resolveCase oracle (c ty inp opts) = .ok v) : v.type = ty := by
  rcases List.mem_cons.mp hc with rfl | hc2
  · exact decimalFromTypeValueInput_ok oracle ty inp opts v h
  · exact decimalBasic_ok c hc2 oracle ty inp opts v h

/-- Generic form of the engine failure-selection property: when every case
of the list resolves to a mismatch, the engine resolves to the earliest
maximum-specificity one. -/
theorem wrapAllFail_best {Ty V : Type} (oracle : Request → Response)
    (ty : Ty) (inp : Input) (opts : WrapOptions) (cases : List (Case Ty V))
    (es : List (Mismatch Ty)) (hne : es ≠ [])
    (h : cases.map (fun c => resolveCase oracle (c ty inp opts)) =
      es.map Outcome.err) :
    ∃ e, resolveCase oracle (wrapWithCases ty inp opts cases) = .err e ∧
      es.find? (fun x => x.specificity == maxSpec es) = some e := by
  cases es with
  | nil => exact absurd rfl hne
  | cons e0 rest =>
    refine ⟨selectBest e0 rest, ?_, selectBest_find rest e0⟩
    have hrun := wrapGo_allFail oracle ty inp opts cases (e0 :: rest) [] h
    simpa [wrapWithCases, selectRecorded] using hrun

/-! ## Claim theorems -/

/-- C1: For every bytes or decimal coercion run in which every case fails
with a Mismatch error, the single error raised is the recorded error with
maximum specificity among all cases' failures for that run; when several
recorded errors tie at the maximum specificity, the one from the earliest
case in list order is raised (here expressed by `find?` at the maximum
specificity, which returns the earliest list element attaining it). -/
theorem engine_reports_max_specificity_earliest :
    (∀ (oracle : Request → Response) (ty : BytesType) (inp : Input)
      (opts : WrapOptions) (es : List (Mismatch BytesType)), es ≠ [] →
      bytesCases.map (fun c => resolveCase oracle (c ty inp opts)) =
        es.map Outcome.err →
      ∃ e, resolveCase oracle (wrapWithCases ty inp opts bytesCases) =
          .err e ∧
        es.find? (fun x => x.specificity == maxSpec es) = some e) ∧
    (∀ (oracle : Request → Response) (ty : DecimalType) (inp : Input)
      (opts : WrapOptions) (es : List (Mismatch DecimalType)), es ≠ [] →
      decimalCases.map (fun c => resolveCase oracle (c ty inp opts)) =
        es.map Outcome.err →
      ∃ e, resolveCase oracle (wrapWithCases ty inp opts decimalCases) =
          .err e ∧
        es.find? (fun x => x.specificity == maxSpec es) = some e) :=
  ⟨fun oracle ty inp opts es hne h =>
    wrapAllFail_best oracle ty inp opts bytesCases es hne h,
   fun oracle ty inp opts es hne h =>
    wrapAllFail_best oracle ty inp opts decimalCases es hne h⟩

/-- An external resolver that answers with a non-decimal response kind. -/
def oracleNone : Request → Response := fun _ => ⟨"none", none, none, false⟩

/-- An external resolver that answers decimal requests with no value and no
partial recognition. -/
def oracleDec : Request → Response := fun _ => ⟨"decimal", none, none, false⟩

/-- The per-case errors of the bytes run on the unrecognizable input. -/
def bytesErrsW : List (Mismatch BytesType) :=
  [⟨.dynamic, .otherI, "input", 1, .notATypeValuePair⟩,
   ⟨.dynamic, .otherI, "input", 1, .notAString⟩,
   ⟨.dynamic, .otherI, "input", 1, .notABoxedString⟩,
   ⟨.dynamic, .otherI, "input", 1, .notAUint8ArrayLike⟩,
   ⟨.dynamic, .otherI, "input", 1, .notAWrappedResult⟩,
   ⟨.dynamic, .otherI, "input", 1, .notEncodingTextShape⟩,
   ⟨.dynamic, .otherI, "input", 2, .bytesCatchAll⟩]

/-- The per-case errors of the decimal run on the unrecognizable input. -/
def decErrsW : List (Mismatch DecimalType) :=
  [⟨⟨.fixed, 128, 18⟩, .otherI, "input", 1, .notATypeValuePair⟩,
   ⟨⟨.fixed, 128, 18⟩, .otherI, "input", 1, .notANumber⟩,
   ⟨⟨.fixed, 128, 18⟩, .otherI, "input", 1, .notAString⟩,
   ⟨⟨.fixed, 128, 18⟩, .otherI, "input", 1, .notABoxedNumber⟩,
   ⟨⟨.fixed, 128, 18⟩, .otherI, "input", 1, .notABoxedString⟩,
   ⟨⟨.fixed, 128, 18⟩, .otherI, "input", 1, .notABigint⟩,
   ⟨⟨.fixed, 128, 18⟩, .otherI, "input", 1, .notABN⟩,
   ⟨⟨.fixed, 128, 18⟩, .otherI, "input", 1, .notABig⟩,
   ⟨⟨.fixed, 128, 18⟩, .otherI, "input", 1, .notAWrappedResult⟩,
   ⟨⟨.fixed, 128, 18⟩, .otherI, "input", 1, .notAWrappedResult⟩,
   ⟨⟨.fixed, 128, 18⟩, .otherI, "input", 1, .notAWrappedResult⟩,
   ⟨⟨.fixed, 128, 18⟩, .otherI, "input", 1, .notAWrappedResult⟩,
   ⟨⟨.fixed, 128, 18⟩, .otherI, "input", 3,
     .unrecognizedNumber ⟨.fixed, 128, 18⟩⟩]

/-- Witness for C1: concrete all-failing bytes and decimal runs. -/
theorem engine_reports_max_specificity_earliest_witness :
    (∃ e, resolveCase oracleNone
        (wrapWithCases BytesType.dynamic Input.otherI ⟨"input", false⟩
          bytesCases) = .err e ∧
      bytesErrsW.find? (fun x => x.specificity == maxSpec bytesErrsW) =
        some e) ∧
    (∃ e, resolveCase oracleDec
        (wrapWithCases (DecimalType.mk .fixed 128 18) Input.otherI
          ⟨"input", false⟩ decimalCases) = .err e ∧
      decErrsW.find? (fun x => x.specificity == maxSpec decErrsW) = some e) :=
  ⟨engine_reports_max_specificity_earliest.1 oracleNone BytesType.dynamic
      Input.otherI ⟨"input", false⟩ bytesErrsW (by decide) (by decide),
   engine_reports_max_specificity_earliest.2 oracleDec
      (DecimalType.mk .fixed 128 18) Input.otherI ⟨"input", false⟩ decErrsW
      (by decide) (by decide)⟩

theorem jsToLower_length (s : String) :
    (jsToLower s).data.length = s.data.length := by
  simp [jsToLower]

/-- C2: For every bytes case that accepts its input and every static target
type of length L, the returned payload is the lowercased hex string
right-padded with zero bytes to exactly L bytes (2L hex characters after
the "0x" prefix, i.e. 2L + 2 characters in all); and for every input whose
recognized byte length exceeds L, the case instead fails with a
specificity-5 Mismatch carrying an "overlong" reason.  The first conjunct
states the lowercase-and-pad behavior of `validateAndPad` on even-length
hex payloads, the second the overlong rejection, the third that every
accepting bytes case's payload is an output of `validateAndPad`. -/
theorem bytes_payload_padded_and_overlong_rejected :
    (∀ (L : Nat) (s : String) (i : Input) (n : String),
      s.data.length % 2 = 0 → 2 ≤ s.data.length →
      (s.data.length - 2) / 2 ≤ L →
      validateAndPad (.static L) s i n =
        .ok (padEndZeros (jsToLower s) (L * 2 + 2)) ∧
      (padEndZeros (jsToLower s) (L * 2 + 2)).data.length = L * 2 + 2) ∧
    (∀ (L : Nat) (s : String) (i : Input) (n : String),
      (s.data.length - 2) / 2 > L →
      validateAndPad (.static L) s i n =
        .error ⟨.static L, i, n, 5, .overlong L ((s.data.length - 2) / 2)⟩) ∧
    (∀ c ∈ bytesCases, ∀ (oracle : Request → Response) (ty : BytesType)
      (inp : Input) (opts : WrapOptions) (v : BytesValue),
      resolveCase oracle (c ty inp opts) = .ok v →
      ∃ s i n, validateAndPad ty s i n = Except.ok v.asHex) := by
  refine ⟨?_, ?_, ?_⟩
  · intro L s i n hev hge hle
    constructor
    · simp only [validateAndPad]
      rw [jsToLower_length, if_neg (by omega)]
    · simp only [padEndZeros, List.length_append, List.length_replicate,
        jsToLower_length]
      omega
  · intro L s i n hgt
    simp only [validateAndPad]
    rw [jsToLower_length, if_pos hgt]
  · intro c hc oracle ty inp opts v h
    exact (bytesAll_ok c hc oracle ty inp opts v h).2

/-- Witness for C2: a short hex string against bytes4, an overlong one
against bytes2, and an accepting run of the hex-string case. -/
theorem bytes_payload_padded_and_overlong_rejected_witness :
    (validateAndPad (.static 4) "0xAB" (Input.str "0xAB") "input" =
        .ok (padEndZeros (jsToLower "0xAB") (4 * 2 + 2)) ∧
      (padEndZeros (jsToLower "0xAB") (4 * 2 + 2)).data.length = 4 * 2 + 2) ∧
    (validateAndPad (.static 2) "0x010203" (Input.str "0x010203") "input" =
      .error ⟨.static 2, .str "0x010203", "input", 5, .overlong 2 3⟩) ∧
    (∃ s i n, validateAndPad BytesType.dynamic s i n =
      Except.ok (BytesValue.mk BytesType.dynamic "0xab").asHex) :=
  ⟨bytes_payload_padded_and_overlong_rejected.1 4 "0xAB" (.str "0xAB")
      "input" (by decide) (by decide) (by decide),
   bytes_payload_padded_and_overlong_rejected.2.1 2 "0x010203"
      (.str "0x010203") "input" (by decide),
   bytes_payload_padded_and_overlong_rejected.2.2 bytesFromHexString
      (by simp [bytesCases, bytesCasesBasic]) oracleNone BytesType.dynamic
      (.str "0xAB") ⟨"input", false⟩ ⟨BytesType.dynamic, "0xab"⟩
      (by decide)⟩

/-- C3: For every decimal target type and every exact decimal value reached
by any decimal case, the shared validator fails with a specificity-5
Mismatch (message stating required versus actual places) whenever the
value's number of fractional digits exceeds type.places, fails with a
specificity-5 Mismatch whenever the value is outside the inclusive range
[minValue(type), maxValue(type)], and otherwise accepts. -/
theorem decimal_validate_places_and_range :
    ∀ (dt : DecimalType) (q : ℚ) (i : Input) (n : String),
    (countDecimalPlaces q > dt.places →
      validate dt q i n =
        .error ⟨dt, i, n, 5, .tooPrecise dt.places (countDecimalPlaces q)⟩) ∧
    (q > maxValue dt ∨ q < minValue dt →
      ∃ m, validate dt q i n = .error ⟨dt, i, n, 5, m⟩) ∧
    (countDecimalPlaces q ≤ dt.places → minValue dt ≤ q → q ≤ maxValue dt →
      validate dt q i n = .ok ()) := by
  intro dt q i n
  refine ⟨?_, ?_, ?_⟩
  · intro hgt
    simp only [validate]
    rw [if_pos hgt]
  · intro hrange
    by_cases hp : countDecimalPlaces q > dt.places
    · exact ⟨.tooPrecise dt.places (countDecimalPlaces q), by
        simp only [validate]; rw [if_pos hp]⟩
    · exact ⟨.outOfRange, by
        simp only [validate]; rw [if_neg hp, if_pos hrange]⟩
  · intro hp hmin hmax
    simp only [validate]
    rw [if_neg (by omega), if_neg (by push_neg; exact ⟨hmax, hmin⟩)]

/-- Witness for C3 at ufixed8x0: too-precise 1.5, out-of-range 300,
accepted 2. -/
theorem decimal_validate_places_and_range_witness :
    (validate ⟨.ufixed, 8, 0⟩ (mkRat 3 2) Input.otherI "input" =
      .error ⟨⟨.ufixed, 8, 0⟩, .otherI, "input", 5, .tooPrecise 0 1⟩) ∧
    (∃ m, validate ⟨.ufixed, 8, 0⟩ 300 Input.otherI "input" =
      .error ⟨⟨.ufixed, 8, 0⟩, .otherI, "input", 5, m⟩) ∧
    (validate ⟨.ufixed, 8, 0⟩ 2 Input.otherI "input" = .ok ()) :=
  ⟨(decimal_validate_places_and_range ⟨.ufixed, 8, 0⟩ (mkRat 3 2)
      Input.otherI "input").1 (by decide),
   (decimal_validate_places_and_range ⟨.ufixed, 8, 0⟩ 300 Input.otherI
      "input").2.1 (Or.inl (by decide)),
   (decimal_validate_places_and_range ⟨.ufixed, 8, 0⟩ 2 Input.otherI
      "input").2.2 (by decide) (by decide) (by decide)⟩

/-! ## Helpers for the round-trip and string claims -/

/-- One engine step on a failing head case: record the error and continue. -/
theorem wrapGo_cons_err {Ty V : Type} {ty : Ty} {inp : Input}
    {opts : WrapOptions} {c : Case Ty V} {rest : List (Case Ty V)}
    {rec : List (Mismatch Ty)} {e : Mismatch Ty}
    (h : c ty inp opts = .err e) :
    wrapGo ty inp opts (c :: rest) rec =
      wrapGo ty inp opts rest (rec ++ [e]) := by
  show withFallback (c ty inp opts)
    (fun e => wrapGo ty inp opts rest (rec ++ [e])) = _
  rw [h]
  rfl

/-- One engine step on a succeeding head case: first match wins. -/
theorem wrapGo_cons_ok {Ty V : Type} {ty : Ty} {inp : Input}
    {opts : WrapOptions} {c : Case Ty V} {rest : List (Case Ty V)}
    {rec : List (Mismatch Ty)} {v : V}
    (h : c ty inp opts = .ok v) :
    wrapGo ty inp opts (c :: rest) rec = .ok v := by
  show withFallback (c ty inp opts)
    (fun e => wrapGo ty inp opts rest (rec ++ [e])) = _
  rw [h]
  rfl

/-- The validator accepts exactly the in-range, precise-enough values. -/
theorem validate_ok_of (dt : DecimalType) (q : ℚ) (i : Input) (n : String)
    (hp : countDecimalPlaces q ≤ dt.places) (hmin : minValue dt ≤ q)
    (hmax : q ≤ maxValue dt) : validate dt q i n = .ok () := by
  simp only [validate]
  rw [if_neg (by omega), if_neg (by push_neg; exact ⟨hmax, hmin⟩)]

/-- Does a hex payload have canonical length for the type (exactly
`2 length + 2` characters for a static type)? -/
def canonLen (dt : BytesType) (hx : String) : Bool :=
  match dt with
  | .static L => hx.data.length == L * 2 + 2
  | .dynamic => true

/-- On an already-lowercase payload of canonical length, `validateAndPad`
is the identity. -/
theorem validateAndPad_canonical (dt : BytesType) (hx : String) (i : Input)
    (n : String) (hlow : jsToLower hx = hx) (hlen : canonLen dt hx = true) :
    validateAndPad dt hx i n = .ok hx := by
  cases dt with
  | dynamic => simp [validateAndPad, hlow]
  | static L =>
    have hl : hx.data.length = L * 2 + 2 := by
      simpa [canonLen] using hlen
    simp only [validateAndPad, hlow]
    rw [if_neg (by omega)]
    have : padEndZeros hx (L * 2 + 2) = hx := by
      simp [padEndZeros, hl]
    rw [this]

/-- The four bytes cases preceding the wrapped-value case all reject a
wrapped input at specificity 1 (shape mismatch). -/
theorem bytesEarlyErrs (dt : BytesType) (w : Wrapped) (opts : WrapOptions) :
    bytesFromTypeValueInput dt (.wrapped w) opts =
      .err ⟨dt, .wrapped w, opts.name, 1, .notATypeValuePair⟩ ∧
    bytesFromHexString dt (.wrapped w) opts =
      .err ⟨dt, .wrapped w, opts.name, 1, .notAString⟩ ∧
    bytesFromBoxedString dt (.wrapped w) opts =
      .err ⟨dt, .wrapped w, opts.name, 1, .notABoxedString⟩ ∧
    bytesFromUint8ArrayLike dt (.wrapped w) opts =
      .err ⟨dt, .wrapped w, opts.name, 1, .notAUint8ArrayLike⟩ :=
  ⟨rfl, rfl, rfl, rfl⟩

/-- The eight decimal cases preceding the wrapped-decimal case all reject a
wrapped input at specificity 1 (shape mismatch). -/
theorem decimalEarlyErrs (dt : DecimalType) (w : Wrapped)
    (opts : WrapOptions) :
    decimalFromTypeValueInput dt (.wrapped w) opts =
      .err ⟨dt, .wrapped w, opts.name, 1, .notATypeValuePair⟩ ∧
    decimalFromNumber dt (.wrapped w) opts =
      .err ⟨dt, .wrapped w, opts.name, 1, .notANumber⟩ ∧
    decimalFromString dt (.wrapped w) opts =
      .err ⟨dt, .wrapped w, opts.name, 1, .notAString⟩ ∧
    decimalFromBoxedNumber dt (.wrapped w) opts =
      .err ⟨dt, .wrapped w, opts.name, 1, .notABoxedNumber⟩ ∧
    decimalFromBoxedString dt (.wrapped w) opts =
      .err ⟨dt, .wrapped w, opts.name, 1, .notABoxedString⟩ ∧
    decimalFromBigint dt (.wrapped w) opts =
      .err ⟨dt, .wrapped w, opts.name, 1, .notABigint⟩ ∧
    decimalFromBN dt (.wrapped w) opts =
      .err ⟨dt, .wrapped w, opts.name, 1, .notABN⟩ ∧
    decimalFromBig dt (.wrapped w) opts =
      .err ⟨dt, .wrapped w, opts.name, 1, .notABig⟩ :=
  ⟨rfl, rfl, rfl, rfl, rfl, rfl, rfl, rfl⟩

/-- The wrapped-bytes case accepts when the strict-mode kind check passes
(or mode is loose) and the payload passes `validateAndPad`. -/
theorem bytesFromBytesValue_accepts (dt bt : BytesType) (hx : String)
    (opts : WrapOptions) (out : String)
    (hcond : (opts.loose = false ∧ bothDynamic bt dt = false ∧
      bothStaticSameLength bt dt = false) → False)
    (hvp : validateAndPad dt hx (.wrapped ⟨.bytesW bt, .value, .hexP hx⟩)
      opts.name = .ok out) :
    bytesFromBytesValue dt (.wrapped ⟨.bytesW bt, .value, .hexP hx⟩) opts =
      .ok ⟨dt, out⟩ := by
  simp only [bytesFromBytesValue, getHex]
  rw [if_neg (fun hh => hh rfl), if_neg hcond, hvp]

/-- The wrapped-decimal case accepts when the strict-mode type check passes
(or mode is loose) and the cloned payload passes the validator. -/
theorem decimalFromDecimalValue_accepts (dt dt2 : DecimalType) (q : ℚ)
    (opts : WrapOptions)
    (hcond : (opts.loose = false ∧ (dt2.typeClass ≠ dt.typeClass ∨
      dt2.bits ≠ dt.bits ∨ dt2.places ≠ dt.places)) → False)
    (hval : validate dt q (.wrapped ⟨.fixedW dt2, .value, .bigP q⟩)
      opts.name = .ok ()) :
    decimalFromDecimalValue dt (.wrapped ⟨.fixedW dt2, .value, .bigP q⟩)
      opts = .ok ⟨dt, q⟩ := by
  simp only [decimalFromDecimalValue, getBig]
  rw [if_neg (fun hh => hh rfl), if_neg hcond]
  simp only [checkedDecimal, hval]

/-- C8: For every bytes or decimal case that succeeds on any input, the
returned canonical value's type field equals the engine-supplied target
type, never the input's own declared type. -/
theorem success_type_is_target_type :
    (∀ c ∈ bytesCases, ∀ (oracle : Request → Response) (ty : BytesType)
      (inp : Input) (opts : WrapOptions) (v : BytesValue),
      resolveCase oracle (c ty inp opts) = .ok v → v.type = ty) ∧
    (∀ c ∈ decimalCases, ∀ (oracle : Request → Response) (ty : DecimalType)
      (inp : Input) (opts : WrapOptions) (v : DecimalValue),
      resolveCase oracle (c ty inp opts) = .ok v → v.type = ty) :=
  ⟨fun c hc oracle ty inp opts v h =>
    (bytesAll_ok c hc oracle ty inp opts v h).1,
   fun c hc oracle ty inp opts v h =>
    decimalAll_ok c hc oracle ty inp opts v h⟩

/-- Witness for C8: a bytes case succeeding on an already-wrapped value of a
different (dynamic) type against a static target, and a decimal case
succeeding on a wrapped value of different bits, both returning the target
type. -/
theorem success_type_is_target_type_witness :
    (BytesValue.mk (BytesType.static 2) "0xab00").type = BytesType.static 2 ∧
    (DecimalValue.mk ⟨.fixed, 128, 18⟩ 3).type = ⟨.fixed, 128, 18⟩ :=
  ⟨success_type_is_target_type.1 bytesFromBytesValue
      (by simp [bytesCases, bytesCasesBasic]) oracleNone (BytesType.static 2)
      (.wrapped ⟨.bytesW .dynamic, .value, .hexP "0xab"⟩) ⟨"input", true⟩
      ⟨BytesType.static 2, "0xab00"⟩ (by decide),
   success_type_is_target_type.2 decimalFromDecimalValue
      (by simp [decimalCases, decimalCasesBasic]) oracleNone
      ⟨.fixed, 128, 18⟩
      (.wrapped ⟨.fixedW ⟨.fixed, 8, 0⟩, .value, .bigP 3⟩) ⟨"input", true⟩
      ⟨⟨.fixed, 128, 18⟩, 3⟩ (by decide)⟩


/-- C4: Coercing a canonical bytes or decimal value whose type equals the
target exactly, with loose=false, succeeds and returns an equal value (same
type, same payload); and coercing a bytes-class or decimal-class wrapped
value of a different but compatible type with loose=true succeeds after
re-running validation (`validateAndPad` respectively `validate`) on its
payload. -/
theorem wrapped_value_round_trip :
    (∀ (dt : BytesType) (hx : String) (opts : WrapOptions)
      (oracle : Request → Response),
      opts.loose = false → jsToLower hx = hx → canonLen dt hx = true →
      resolveCase oracle (wrapWithCases dt
        (.wrapped ⟨.bytesW dt, .value, .hexP hx⟩) opts bytesCases) =
        .ok ⟨dt, hx⟩) ∧
    (∀ (dt : DecimalType) (q : ℚ) (opts : WrapOptions)
      (oracle : Request → Response),
      opts.loose = false →
      countDecimalPlaces q ≤ dt.places → minValue dt ≤ q → q ≤ maxValue dt →
      resolveCase oracle (wrapWithCases dt
        (.wrapped ⟨.fixedW dt, .value, .bigP q⟩) opts decimalCases) =
        .ok ⟨dt, q⟩) ∧
    (∀ (dt bt : BytesType) (hx : String) (opts : WrapOptions)
      (oracle : Request → Response) (out : String),
      opts.loose = true →
      validateAndPad dt hx (.wrapped ⟨.bytesW bt, .value, .hexP hx⟩)
        opts.name = .ok out →
      resolveCase oracle (wrapWithCases dt
        (.wrapped ⟨.bytesW bt, .value, .hexP hx⟩) opts bytesCases) =
        .ok ⟨dt, out⟩) ∧
    (∀ (dt dt2 : DecimalType) (q : ℚ) (opts : WrapOptions)
      (oracle : Request → Response),
      opts.loose = true →
      validate dt q (.wrapped ⟨.fixedW dt2, .value, .bigP q⟩) opts.name =
        .ok () →
      resolveCase oracle (wrapWithCases dt
        (.wrapped ⟨.fixedW dt2, .value, .bigP q⟩) opts decimalCases) =
        .ok ⟨dt, q⟩) := by
  refine ⟨?_, ?_, ?_, ?_⟩
  · intro dt hx opts oracle hloose hlow hlen
    have hcase : bytesFromBytesValue dt
        (.wrapped ⟨.bytesW dt, .value, .hexP hx⟩) opts = .ok ⟨dt, hx⟩ :=
      bytesFromBytesValue_accepts dt dt hx opts hx
        (by cases dt <;> simp [bothDynamic, bothStaticSameLength])
        (validateAndPad_canonical dt hx _ _ hlow hlen)
    have he := bytesEarlyErrs dt ⟨.bytesW dt, .value, .hexP hx⟩ opts
    simp only [wrapWithCases, bytesCases, bytesCasesBasic]
    rw [wrapGo_cons_err he.1, wrapGo_cons_err he.2.1,
      wrapGo_cons_err he.2.2.1, wrapGo_cons_err he.2.2.2,
      wrapGo_cons_ok hcase]
    rfl
  · intro dt q opts oracle hloose hp hmin hmax
    have hcase : decimalFromDecimalValue dt
        (.wrapped ⟨.fixedW dt, .value, .bigP q⟩) opts = .ok ⟨dt, q⟩ :=
      decimalFromDecimalValue_accepts dt dt q opts
        (fun hh => hh.2.elim (fun h2 => h2 rfl)
          (fun h2 => h2.elim (fun h3 => h3 rfl) (fun h3 => h3 rfl)))
        (validate_ok_of dt q _ _ hp hmin hmax)
    have he := decimalEarlyErrs dt ⟨.fixedW dt, .value, .bigP q⟩ opts
    simp only [wrapWithCases, decimalCases, decimalCasesBasic]
    rw [wrapGo_cons_err he.1, wrapGo_cons_err he.2.1,
      wrapGo_cons_err he.2.2.1, wrapGo_cons_err he.2.2.2.1,
      wrapGo_cons_err he.2.2.2.2.1, wrapGo_cons_err he.2.2.2.2.2.1,
      wrapGo_cons_err he.2.2.2.2.2.2.1, wrapGo_cons_err he.2.2.2.2.2.2.2,
      wrapGo_cons_ok hcase]
    rfl
  · intro dt bt hx opts oracle out hloose hvp
    have hcase : bytesFromBytesValue dt
        (.wrapped ⟨.bytesW bt, .value, .hexP hx⟩) opts = .ok ⟨dt, out⟩ := by
      exact bytesFromBytesValue_accepts dt bt hx opts out
        (fun hh => by rw [hloose] at hh; exact Bool.noConfusion hh.1) hvp
    have he := bytesEarlyErrs dt ⟨.bytesW bt, .value, .hexP hx⟩ opts
    simp only [wrapWithCases, bytesCases, bytesCasesBasic]
    rw [wrapGo_cons_err he.1, wrapGo_cons_err he.2.1,
      wrapGo_cons_err he.2.2.1, wrapGo_cons_err he.2.2.2,
      wrapGo_cons_ok hcase]
    rfl
  · intro dt dt2 q opts oracle hloose hval
    have hcase : decimalFromDecimalValue dt
        (.wrapped ⟨.fixedW dt2, .value, .bigP q⟩) opts = .ok ⟨dt, q⟩ :=
      decimalFromDecimalValue_accepts dt dt2 q opts
        (fun hh => by rw [hloose] at hh; exact Bool.noConfusion hh.1) hval
    have he := decimalEarlyErrs dt ⟨.fixedW dt2, .value, .bigP q⟩ opts
    simp only [wrapWithCases, decimalCases, decimalCasesBasic]
    rw [wrapGo_cons_err he.1, wrapGo_cons_err he.2.1,
      wrapGo_cons_err he.2.2.1, wrapGo_cons_err he.2.2.2.1,
      wrapGo_cons_err he.2.2.2.2.1, wrapGo_cons_err he.2.2.2.2.2.1,
      wrapGo_cons_err he.2.2.2.2.2.2.1, wrapGo_cons_err he.2.2.2.2.2.2.2,
      wrapGo_cons_ok hcase]
    rfl

/-- Witness for C4: exact round trips at bytes2 and fixed128x18, and loose
re-wrapping from a dynamic bytes value and a ufixed8x0 decimal value. -/
theorem wrapped_value_round_trip_witness :
    resolveCase oracleNone (wrapWithCases (BytesType.static 2)
      (.wrapped ⟨.bytesW (.static 2), .value, .hexP "0x0102"⟩)
      ⟨"input", false⟩ bytesCases) = .ok ⟨.static 2, "0x0102"⟩ ∧
    resolveCase oracleNone (wrapWithCases (DecimalType.mk .fixed 128 18)
      (.wrapped ⟨.fixedW ⟨.fixed, 128, 18⟩, .value, .bigP (mkRat 5 4)⟩)
      ⟨"input", false⟩ decimalCases) = .ok ⟨⟨.fixed, 128, 18⟩, mkRat 5 4⟩ ∧
    resolveCase oracleNone (wrapWithCases (BytesType.static 2)
      (.wrapped ⟨.bytesW .dynamic, .value, .hexP "0xAB"⟩)
      ⟨"input", true⟩ bytesCases) = .ok ⟨.static 2, "0xab00"⟩ ∧
    resolveCase oracleNone (wrapWithCases (DecimalType.mk .fixed 128 18)
      (.wrapped ⟨.fixedW ⟨.ufixed, 8, 0⟩, .value, .bigP 3⟩)
      ⟨"input", true⟩ decimalCases) = .ok ⟨⟨.fixed, 128, 18⟩, 3⟩ :=
  ⟨wrapped_value_round_trip.1 (.static 2) "0x0102" ⟨"input", false⟩
      oracleNone rfl (by decide) (by decide),
   wrapped_value_round_trip.2.1 ⟨.fixed, 128, 18⟩ (mkRat 5 4)
      ⟨"input", false⟩ oracleNone rfl (by decide) (by decide) (by decide),
   wrapped_value_round_trip.2.2.1 (.static 2) .dynamic "0xAB"
      ⟨"input", true⟩ oracleNone "0xab00" rfl (by rfl),
   wrapped_value_round_trip.2.2.2 ⟨.fixed, 128, 18⟩ ⟨.ufixed, 8, 0⟩ 3
      ⟨"input", true⟩ oracleNone rfl (by rfl)⟩


/-- C5: The decimal type-annotated pair case accepts inputs {type, value}
where type matches fixed or ufixed optionally suffixed BITSxPLACES, with
bits defaulting to 128 and places to 18 when absent; it fails with a
specificity-5 Mismatch whenever the parsed type-class, bits or places
differs from the target, and otherwise recurses into the basic decimal case
list on the value with loose=true. -/
theorem decimal_type_value_case_contract :
    (parseFixedTypeStr "fixed" = some (DecClass.fixed, 128, 18) ∧
      parseFixedTypeStr "ufixed" = some (DecClass.ufixed, 128, 18)) ∧
    (∀ (dt : DecimalType) (tstr : String) (v : Input) (opts : WrapOptions),
      (parseFixedTypeStr tstr = none →
        decimalFromTypeValueInput dt (.typeValue tstr v) opts =
          .err ⟨dt, .typeValue tstr v, opts.name, 5, .specifiedTypeM tstr⟩) ∧
      (∀ (tc : DecClass) (bits places : Nat),
        parseFixedTypeStr tstr = some (tc, bits, places) →
        ((dt.typeClass ≠ tc ∨ dt.bits ≠ bits ∨ dt.places ≠ places) →
          decimalFromTypeValueInput dt (.typeValue tstr v) opts =
            .err ⟨dt, .typeValue tstr v, opts.name, 5,
              .specifiedTypeM tstr⟩) ∧
        (dt.typeClass = tc → dt.bits = bits → dt.places = places →
          decimalFromTypeValueInput dt (.typeValue tstr v) opts =
            wrapWithCases dt v ⟨opts.name, true⟩ decimalCasesBasic))) := by
  refine ⟨⟨by decide, by decide⟩, ?_⟩
  intro dt tstr v opts
  refine ⟨?_, ?_⟩
  · intro hp
    simp only [decimalFromTypeValueInput, hp]
  · intro tc bits places hp
    refine ⟨?_, ?_⟩
    · intro hne
      simp only [decimalFromTypeValueInput, hp]
      rw [if_pos hne]
    · intro h1 h2 h3
      simp only [decimalFromTypeValueInput, hp]
      rw [if_neg (by push_neg; exact ⟨h1, h2, h3⟩)]

/-- Witness for C5: the spec scenario (f) — target fixed128x18, declared
type fixed256x18 — is rejected at specificity 5; a matching declared type
with defaulted bits and places recurses into the basic cases. -/
theorem decimal_type_value_case_contract_witness :
    decimalFromTypeValueInput ⟨.fixed, 128, 18⟩
      (.typeValue "fixed256x18" (.str "1")) ⟨"input", false⟩ =
      .err ⟨⟨.fixed, 128, 18⟩, .typeValue "fixed256x18" (.str "1"), "input",
        5, .specifiedTypeM "fixed256x18"⟩ ∧
    decimalFromTypeValueInput ⟨.fixed, 128, 18⟩
      (.typeValue "fixed" (.str "1")) ⟨"input", false⟩ =
      wrapWithCases ⟨.fixed, 128, 18⟩ (.str "1") ⟨"input", true⟩
        decimalCasesBasic :=
  ⟨(((decimal_type_value_case_contract.2 ⟨.fixed, 128, 18⟩ "fixed256x18"
      (.str "1") ⟨"input", false⟩).2 DecClass.fixed 256 18 (by decide)).1
      (Or.inr (Or.inl (by decide)))),
   (((decimal_type_value_case_contract.2 ⟨.fixed, 128, 18⟩ "fixed"
      (.str "1") ⟨"input", false⟩).2 DecClass.fixed 128 18 (by decide)).2
      rfl rfl rfl)⟩

/-- C7: The decimal external-resolver fallback case suspends exactly once
with a request of kind "decimal" carrying the raw input; a resumption of a
different kind raises a protocol violation; an absent value raises a
Mismatch at specificity 5 under partial recognition and 3 otherwise; a
present value is cloned (the identity on the exact value) and passed
through the shared validator before being returned. -/
theorem decimal_resolver_fallback_contract :
    ∀ (dt : DecimalType) (inp : Input) (opts : WrapOptions),
    ∃ k, decimalFromOther dt inp opts = .suspend ⟨"decimal", inp⟩ k ∧
      (∀ resp : Response, resp.kind ≠ "decimal" →
        k resp = .fatal ⟨"decimal", inp⟩ resp) ∧
      (∀ resp : Response, resp.kind = "decimal" → resp.value = none →
        k resp = .err ⟨dt, inp, opts.name,
          if resp.partiallyRecognized then 5 else 3,
          reasonOrDefault resp.reason dt⟩) ∧
      (∀ (resp : Response) (q : ℚ), resp.kind = "decimal" →
        resp.value = some q →
        k resp = checkedDecimal dt q inp opts.name) ∧
      (∀ (resp : Response) (req2 : Request)
        (k2 : Response → CaseResult DecimalType DecimalValue),
        k resp ≠ .suspend req2 k2) := by
  intro dt inp opts
  refine ⟨_, rfl, ?_, ?_, ?_, ?_⟩
  · intro resp hk
    show (if resp.kind ≠ "decimal" then _ else _) = _
    rw [if_pos hk]
  · intro resp hk hv
    show (if resp.kind ≠ "decimal" then _ else _) = _
    rw [if_neg (fun hh => hh hk), hv]
  · intro resp q hk hv
    show (if resp.kind ≠ "decimal" then _ else _) = _
    rw [if_neg (fun hh => hh hk), hv]
  · intro resp req2 k2
    show (if resp.kind ≠ "decimal" then _ else _) ≠ _
    by_cases hk : resp.kind ≠ "decimal"
    · rw [if_pos hk]
      exact fun hh => CaseResult.noConfusion hh
    · rw [if_neg hk]
      cases hv : resp.value with
      | none => exact fun hh => CaseResult.noConfusion hh
      | some q =>
        simp only [checkedDecimal]
        cases validate dt q inp opts.name with
        | error e => exact fun hh => CaseResult.noConfusion hh
        | ok u => exact fun hh => CaseResult.noConfusion hh

/-- Witness for C7: resuming the fallback with a valueless decimal response
of no partial recognition yields the specificity-3 default-reason error. -/
theorem decimal_resolver_fallback_contract_witness :
    resolveCase oracleDec (decimalFromOther ⟨.fixed, 128, 18⟩ Input.otherI
      ⟨"input", false⟩) =
      .err ⟨⟨.fixed, 128, 18⟩, .otherI, "input", 3,
        .unrecognizedNumber ⟨.fixed, 128, 18⟩⟩ := by
  obtain ⟨k, hs, hf, ha, hv, hns⟩ :=
    decimal_resolver_fallback_contract ⟨.fixed, 128, 18⟩ Input.otherI
      ⟨"input", false⟩
  rw [hs]
  show resolveCase oracleDec (k (oracleDec ⟨"decimal", Input.otherI⟩)) = _
  rw [ha (oracleDec ⟨"decimal", Input.otherI⟩) rfl rfl]
  rfl

/-- C9: In the decimal case set, the enum-value case rejects a wrapped enum
result of kind "error" at specificity only 1 (not 5), and the enum-error
case rejects a wrapped enum result of kind "value" at specificity only 1;
so for any wrapped enum input, only the one of these two cases matching the
input's kind can contribute a high-specificity diagnostic. -/
theorem enum_cases_specificity_one_on_kind_mismatch :
    ∀ (dt : DecimalType) (opts : WrapOptions) (et : String)
      (pay pay2 : WPayload),
    decimalFromEnumValue dt (.wrapped ⟨.enumW et, .error, pay⟩) opts =
      .err ⟨dt, .wrapped ⟨.enumW et, .error, pay⟩, opts.name, 1,
        .errorResultM⟩ ∧
    decimalFromEnumError dt (.wrapped ⟨.enumW et, .value, pay2⟩) opts =
      .err ⟨dt, .wrapped ⟨.enumW et, .value, pay2⟩, opts.name, 1,
        .wrappedWasValue⟩ := by
  intro dt opts et pay pay2
  exact ⟨rfl, rfl⟩


/-- The order of the basic bytes cases as the spec states it (spec section
4.4): encoding/text as case 5 before the previously-wrapped bytes value as
case 6.  This definition follows the spec's words, for comparison with the
source-order `bytesCases`. -/
def bytesCasesSpecOrder : List (Case BytesType BytesValue) :=
  [bytesFromTypeValueInput,
   bytesFromHexString,
   bytesFromBoxedString,
   bytesFromUint8ArrayLike,
   bytesFromEncodingTextInput,
   bytesFromBytesValue,
   bytesFailureCase]

/-- Distinguishing probe: run a case on an encoding/text input.  The case
in position 5 answers differently under the two orders: the source's
`bytesFromBytesValue` rejects it at specificity 1, the spec's
`bytesFromEncodingTextInput` accepts it. -/
def probeCase (c : Case BytesType BytesValue) : Outcome BytesType BytesValue :=
  resolveCase oracleNone
    (c BytesType.dynamic (.encodingText "utf8" "ab") ⟨"input", false⟩)

/-- C6 counterexample: the source case list is not the spec-claimed order —
the two lists differ observably at position 5 (0-based index 4), where the
source tries the previously-wrapped bytes value before the encoding/text
pair. -/
theorem bytes_case_order_spec_refuted :
    bytesCases ≠ bytesCasesSpecOrder := by
  intro h
  have hm : bytesCases.map probeCase = bytesCasesSpecOrder.map probeCase :=
    by rw [h]
  have hne : bytesCases.map probeCase ≠ bytesCasesSpecOrder.map probeCase :=
    by decide
  exact hne hm

/-- C6 (amended): the bytes cases are tried in exactly the source order —
type-annotated pair, hex string, boxed string, byte-array-like,
previously-wrapped bytes value, encoding/text pair, catch-all failure — so
the previously-wrapped bytes-value case is tried before the encoding/text
pair case; and the engine runs a case list strictly head-first, reaching
later cases only through the head case's failure fallback. -/
theorem bytes_case_order_actual :
    bytesCases = [bytesFromTypeValueInput, bytesFromHexString,
      bytesFromBoxedString, bytesFromUint8ArrayLike, bytesFromBytesValue,
      bytesFromEncodingTextInput, bytesFailureCase] ∧
    ∀ (Ty V : Type) (ty : Ty) (inp : Input) (opts : WrapOptions)
      (c : Case Ty V) (rest : List (Case Ty V)),
      wrapWithCases ty inp opts (c :: rest) =
        withFallback (c ty inp opts)
          (fun e => wrapGo ty inp opts rest [e]) :=
  ⟨rfl, fun _ _ _ _ _ _ _ => rfl⟩


/-- The head of a `dropWhile` result fails the predicate. -/
theorem dropWhile_head_false {α : Type} (p : α → Bool) :
    ∀ (l : List α) (a : α) (t : List α), l.dropWhile p = a :: t →
    p a = false
  | [], a, t, h => by simp [List.dropWhile] at h
  | x :: xs, a, t, h => by
    rw [List.dropWhile_cons] at h
    by_cases hx : p x = true
    · rw [if_pos hx] at h
      exact dropWhile_head_false p xs a t h
    · rw [if_neg hx] at h
      injection h with h1 h2
      subst h1
      simpa using hx

/-- `dropWhile` is idempotent. -/
theorem dropWhile_idem {α : Type} (p : α → Bool) (l : List α) :
    (l.dropWhile p).dropWhile p = l.dropWhile p := by
  cases h : l.dropWhile p with
  | nil => rfl
  | cons a t =>
    have ha := dropWhile_head_false p l a t h
    rw [List.dropWhile_cons, ha]
    simp

/-- A trimmed character list has no leading whitespace left. -/
theorem trimChars_dropWhile (l : List Char) :
    (trimChars l).dropWhile isJsWS = trimChars l := by
  cases hv : ((l.dropWhile isJsWS).reverse.dropWhile isJsWS).reverse with
  | nil =>
    show (trimChars l).dropWhile isJsWS = trimChars l
    unfold trimChars
    rw [hv]
    rfl
  | cons b bs =>
    have hsplit : (l.dropWhile isJsWS).reverse.takeWhile isJsWS ++
        (l.dropWhile isJsWS).reverse.dropWhile isJsWS =
        (l.dropWhile isJsWS).reverse :=
      List.takeWhile_append_dropWhile isJsWS (l.dropWhile isJsWS).reverse
    have hu : l.dropWhile isJsWS =
        ((l.dropWhile isJsWS).reverse.dropWhile isJsWS).reverse ++
          ((l.dropWhile isJsWS).reverse.takeWhile isJsWS).reverse := by
      have hr := congrArg List.reverse hsplit
      rw [List.reverse_append, List.reverse_reverse] at hr
      exact hr.symm
    rw [hv] at hu
    have hb : isJsWS b = false :=
      dropWhile_head_false isJsWS l b _ (by rw [hu]; rfl)
    show (trimChars l).dropWhile isJsWS = trimChars l
    unfold trimChars
    rw [hv, List.dropWhile_cons, hb]
    simp

/-- Trimming is idempotent. -/
theorem trimChars_idem (l : List Char) :
    trimChars (trimChars l) = trimChars l := by
  have h1 := trimChars_dropWhile l
  show (((trimChars l).dropWhile isJsWS).reverse.dropWhile
    isJsWS).reverse = trimChars l
  rw [h1]
  show ((((((l.dropWhile isJsWS).reverse.dropWhile
    isJsWS).reverse).reverse).dropWhile isJsWS)).reverse = trimChars l
  rw [List.reverse_reverse, dropWhile_idem]
  rfl

/-- `jsTrim` is idempotent, as JavaScript `trim` is. -/
theorem jsTrim_idem (s : String) : jsTrim (jsTrim s) = jsTrim s := by
  show String.mk (trimChars (trimChars s.data)) = String.mk (trimChars s.data)
  rw [trimChars_idem]

/-- The validator's acceptance does not depend on the diagnostic input and
name arguments. -/
theorem validate_ok_iff (dt : DecimalType) (q : ℚ) (i1 i2 : Input)
    (n1 n2 : String) :
    validate dt q i1 n1 = .ok () ↔ validate dt q i2 n2 = .ok () := by
  unfold validate
  split_ifs <;> simp

/-- The shared accepting tail's success does not depend on the diagnostic
input and name arguments. -/
theorem checkedDecimal_ok_iff (dt : DecimalType) (q : ℚ) (i1 i2 : Input)
    (n1 n2 : String) (v : DecimalValue) :
    checkedDecimal dt q i1 n1 = .ok v ↔ checkedDecimal dt q i2 n2 = .ok v := by
  unfold checkedDecimal
  cases h1 : validate dt q i1 n1 with
  | error e1 =>
    cases h2 : validate dt q i2 n2 with
    | error e2 => simp
    | ok u =>
      cases u
      have h1' := (validate_ok_iff dt q i2 i1 n2 n1).mp h2
      rw [h1'] at h1
      cases h1
  | ok u =>
    cases u
    have h2 : validate dt q i2 n2 = .ok () :=
      (validate_ok_iff dt q i1 i2 n1 n2).mp h1
    rw [h2]

/-- C10: The decimal string case trims leading and trailing whitespace
before parsing — any string whose trimmed form parses as an exact decimal
that passes validation is accepted with the value of the trimmed form, and
surrounding whitespace alone never changes whether (or with which value) a
string is accepted. -/
theorem decimal_string_trims_whitespace :
    (∀ (dt : DecimalType) (opts : WrapOptions) (s : String) (q : ℚ),
      parseBig (jsTrim s) = some q →
      validate dt q (.str s) opts.name = .ok () →
      decimalFromString dt (.str s) opts = .ok ⟨dt, q⟩) ∧
    (∀ (dt : DecimalType) (opts : WrapOptions) (s : String)
      (v : DecimalValue),
      decimalFromString dt (.str s) opts = .ok v ↔
      decimalFromString dt (.str (jsTrim s)) opts = .ok v) := by
  constructor
  · intro dt opts s q hp hval
    simp only [decimalFromString, hp, checkedDecimal, hval]
  · intro dt opts s v
    constructor
    · intro h
      cases hp : parseBig (jsTrim s) with
      | none =>
        simp only [decimalFromString, hp] at h
        exact CaseResult.noConfusion h
      | some q =>
        simp only [decimalFromString, hp] at h
        simp only [decimalFromString, jsTrim_idem, hp]
        exact (checkedDecimal_ok_iff dt q (.str s) (.str (jsTrim s))
          opts.name opts.name v).mp h
    · intro h
      cases hp : parseBig (jsTrim s) with
      | none =>
        simp only [decimalFromString, jsTrim_idem, hp] at h
        exact CaseResult.noConfusion h
      | some q =>
        simp only [decimalFromString, jsTrim_idem, hp] at h
        simp only [decimalFromString, hp]
        exact (checkedDecimal_ok_iff dt q (.str (jsTrim s)) (.str s)
          opts.name opts.name v).mp h

/-- Witness for C10: a whitespace-surrounded numeric string accepted with
the trimmed value. -/
theorem decimal_string_trims_whitespace_witness :
    decimalFromString ⟨.ufixed, 128, 18⟩ (.str " 1.25 ")
      ⟨"input", false⟩ = .ok ⟨⟨.ufixed, 128, 18⟩, mkRat 5 4⟩ ∧
    (decimalFromString ⟨.ufixed, 128, 18⟩ (.str " 1.25 ")
        ⟨"input", false⟩ = .ok ⟨⟨.ufixed, 128, 18⟩, mkRat 5 4⟩ ↔
      decimalFromString ⟨.ufixed, 128, 18⟩ (.str (jsTrim " 1.25 "))
        ⟨"input", false⟩ = .ok ⟨⟨.ufixed, 128, 18⟩, mkRat 5 4⟩) :=
  ⟨decimal_string_trims_whitespace.1 ⟨.ufixed, 128, 18⟩ ⟨"input", false⟩
      " 1.25 " (mkRat 5 4) (by rfl) (by rfl),
   decimal_string_trims_whitespace.2 ⟨.ufixed, 128, 18⟩ ⟨"input", false⟩
      " 1.25 " ⟨⟨.ufixed, 128, 18⟩, mkRat 5 4⟩⟩

end Truffle
